import Mathlib

/-!
Verification development for the cattgram scraper core: a shallow embedding of
the multi-source resolution pipeline (src/scraper/mod.rs), the text extractors
(src/scraper/embed_page.rs), the private-API strategy (src/scraper/papi.rs),
the share-link redirect resolver (src/handlers/embed.rs) and the shortcode
codec (src/utils/instagram.rs), together with theorems about the behaviours
the specification describes.

Modelling conventions:
* Rust strings are embedded as `List Char`; byte positions coincide with
  character positions on the ASCII inputs the scanners manipulate.
* `serde_json::Value` is embedded as the inductive `Json`; numbers are `Int`
  (the integral values the scraper reads; floats are outside the model).
* Fallible I/O results (`worker::Result<T>`) are embedded as
  `Except String T`; the network responses a run observes are passed to the
  embedded functions as explicit arguments.
-/

namespace Cattgram

/-- Media kind (src/scraper/types.rs `MediaType`). -/
inductive MediaType where
  | image
  | video
  deriving DecidableEq, Repr

/-- A single media entry (src/scraper/types.rs `Media`). -/
structure Media where
  media_type : MediaType
  url : String
  thumbnail_url : Option String
  width : Option Nat
  height : Option Nat
  deriving DecidableEq, Repr

/-- The normalized record (src/scraper/types.rs `InstaData`). -/
structure InstaData where
  post_id : String
  username : String
  caption : Option String
  media : List Media
  like_count : Option Nat
  comment_count : Option Nat
  is_video : Bool
  video_view_count : Option Nat
  timestamp : Nat
  deriving DecidableEq, Repr

/-- Embedding of `serde_json::Value`. -/
inductive Json where
  | null
  | bool (b : Bool)
  | num (n : Int)
  | str (s : String)
  | arr (elems : List Json)
  | obj (fields : List (String × Json))

/-- First field with the given key, as `serde_json`'s object lookup. -/
def lookupField : List (String × Json) → String → Option Json
  | [], _ => none
  | (k, v) :: rest, key => if k = key then some v else lookupField rest key

/-- `Value::get` on objects (returns `none` on non-objects and missing keys). -/
def Json.get : Json → String → Option Json
  | Json.obj fields, key => lookupField fields key
  | _, _ => none

/-- `Value::as_str`. -/
def Json.as_str : Json → Option String
  | Json.str s => some s
  | _ => none

/-- `Value::as_bool`. -/
def Json.as_bool : Json → Option Bool
  | Json.bool b => some b
  | _ => none

/-- `Value::as_array`. -/
def Json.as_array : Json → Option (List Json)
  | Json.arr xs => some xs
  | _ => none

/-- `Value::as_u64`: an integral value in `[0, 2^64)`. -/
def Json.as_u64 : Json → Option Nat
  | Json.num n => if 0 ≤ n ∧ n < 18446744073709551616 then some n.toNat else none
  | _ => none

/-- `Value::is_null`. -/
def Json.is_null : Json → Bool
  | Json.null => true
  | _ => false

/-! ### Generic string-scanning helpers (embeddings of `str::find` etc.) -/

/-- Auxiliary walker for substring search. -/
def findSubAux (needle : List Char) : List Char → Nat → Option Nat
  | [], i => if needle.isEmpty then some i else none
  | c :: rest, i =>
    if needle.isPrefixOf (c :: rest) then some i else findSubAux needle rest (i + 1)

/-- `str::find(pattern)`: index of the first occurrence of `needle`. -/
def findSub (needle hay : List Char) : Option Nat :=
  findSubAux needle hay 0

/-- `str::contains(pattern)`. -/
def containsSub (hay needle : List Char) : Bool :=
  (findSub needle hay).isSome

/-- `str::rfind(char)`: index of the last occurrence of a character. -/
def rfindChar (cs : List Char) (c : Char) : Option Nat :=
  (List.findIdx? (fun x => x = c) cs.reverse).map (fun j => cs.length - 1 - j)

/-- `str::trim` (ASCII whitespace, which is all the scraper's inputs use). -/
def trimChars (cs : List Char) : List Char :=
  ((cs.dropWhile Char.isWhitespace).reverse.dropWhile Char.isWhitespace).reverse

/-- Split a character list at separators (as `str::split` over one-char
patterns: leading, trailing and doubled separators yield empty pieces). -/
def splitOnChar (p : Char → Bool) : List Char → List (List Char)
  | [] => [[]]
  | c :: rest =>
    if p c then [] :: splitOnChar p rest
    else
      match splitOnChar p rest with
      | [] => [[c]]
      | g :: gs => (c :: g) :: gs

/-- Fuel-indexed worker for `String::replace`; the fuel only bounds the
recursion depth (one unit per character consumed) and is always sufficient
when started at the string's length. -/
def replaceFuel : Nat → List Char → List Char → List Char → List Char
  | 0, s, _, _ => s
  | Nat.succ fuel, s, pat, rep =>
    match s with
    | [] => []
    | c :: rest =>
      if pat ≠ [] ∧ pat.isPrefixOf (c :: rest) then
        rep ++ replaceFuel fuel ((c :: rest).drop pat.length) pat rep
      else
        c :: replaceFuel fuel rest pat rep

/-- `String::replace(pat, rep)`: non-overlapping left-to-right replacement. -/
def replaceList (s pat rep : List Char) : List Char :=
  replaceFuel s.length s pat rep

/-! ### JSON parsing (embedding of `serde_json::from_str` on the scraper's
integral-numbered documents) -/

/-- Skip JSON whitespace. -/
def skipWs : List Char → List Char
  | [] => []
  | c :: rest =>
    if c = ' ' ∨ c = '\n' ∨ c = '\t' ∨ c = '\r' then skipWs rest else c :: rest

/-- Value of a hex digit. -/
def hexDigit (c : Char) : Option Nat :=
  if '0' ≤ c ∧ c ≤ '9' then some (c.toNat - '0'.toNat)
  else if 'a' ≤ c ∧ c ≤ 'f' then some (c.toNat - 'a'.toNat + 10)
  else if 'A' ≤ c ∧ c ≤ 'F' then some (c.toNat - 'A'.toNat + 10)
  else none

/-- Single-character JSON escapes. -/
def simpleEsc (c : Char) : Option Char :=
  if c = '"' then some '"'
  else if c = '\\' then some '\\'
  else if c = '/' then some '/'
  else if c = 'n' then some '\n'
  else if c = 't' then some '\t'
  else if c = 'r' then some '\r'
  else if c = 'b' then some (Char.ofNat 8)
  else if c = 'f' then some (Char.ofNat 12)
  else none

/-- Parse the remainder of a JSON string literal (after the opening quote):
returns the unescaped characters and the input following the closing quote.
A `\\uXXXX` escape decodes the scalar (rejecting surrogates, which serde
pairs up — outside this model). -/
def parseStrChars : List Char → Option (List Char × List Char)
  | [] => none
  | '"' :: rest => some ([], rest)
  | '\\' :: 'u' :: h1 :: h2 :: h3 :: h4 :: rest =>
    (match hexDigit h1, hexDigit h2, hexDigit h3, hexDigit h4 with
     | some a, some b, some c, some d =>
       let n := ((a * 16 + b) * 16 + c) * 16 + d
       if 55296 ≤ n ∧ n < 57344 then none
       else (parseStrChars rest).map (fun p => (Char.ofNat n :: p.1, p.2))
     | _, _, _, _ => none)
  | '\\' :: e :: rest =>
    (match simpleEsc e with
     | some c => (parseStrChars rest).map (fun p => (c :: p.1, p.2))
     | none => none)
  | c :: rest =>
    if c.toNat < 32 ∨ c = '"' ∨ c = '\\' then none
    else (parseStrChars rest).map (fun p => (c :: p.1, p.2))

/-- Longest digit run at the head of the input. -/
def spanDigits : List Char → List Char × List Char
  | [] => ([], [])
  | c :: rest =>
    if c.isDigit then
      let p := spanDigits rest
      (c :: p.1, p.2)
    else ([], c :: rest)

/-- Numeric value of a digit run. -/
def digitsToNat (ds : List Char) : Nat :=
  ds.foldl (fun acc c => acc * 10 + (c.toNat - '0'.toNat)) 0

/-- Parse an unsigned JSON integer (digits with the JSON leading-zero rule;
fraction/exponent forms are outside the model). -/
def parseNat : List Char → Option (Nat × List Char)
  | cs =>
    let p := spanDigits cs
    if p.1.isEmpty then none
    else if 1 < p.1.length ∧ p.1.headI = '0' then none
    else
      match p.2 with
      | c :: _ => if c = '.' ∨ c = 'e' ∨ c = 'E' then none else some (digitsToNat p.1, p.2)
      | [] => some (digitsToNat p.1, p.2)

/-- Parser mode: a single value, the members of an object after `\x7b`, or the
elements of an array after `[`. -/
inductive PMode where
  | val
  | fields (acc : List (String × Json))
  | elems (acc : List Json)

/-- Fuel-indexed JSON parser core. Each recursive call spends one unit of
fuel and consumes input; `2 * length + 1` fuel is always sufficient. -/
def parseP : Nat → PMode → List Char → Option (Json × List Char)
  | 0, _, _ => none
  | Nat.succ fuel, PMode.val, cs =>
    (match skipWs cs with
     | [] => none
     | '\x7b' :: rest =>
       (match skipWs rest with
        | '\x7d' :: r2 => some (Json.obj [], r2)
        | r2 => parseP fuel (PMode.fields []) r2)
     | '[' :: rest =>
       (match skipWs rest with
        | ']' :: r2 => some (Json.arr [], r2)
        | r2 => parseP fuel (PMode.elems []) r2)
     | '"' :: rest =>
       (parseStrChars rest).map (fun p => (Json.str (String.mk p.1), p.2))
     | 't' :: 'r' :: 'u' :: 'e' :: rest => some (Json.bool true, rest)
     | 'f' :: 'a' :: 'l' :: 's' :: 'e' :: rest => some (Json.bool false, rest)
     | 'n' :: 'u' :: 'l' :: 'l' :: rest => some (Json.null, rest)
     | '-' :: rest =>
       (parseNat rest).map (fun p => (Json.num (-(p.1 : Int)), p.2))
     | c :: rest =>
       if c.isDigit then
         (parseNat (c :: rest)).map (fun p => (Json.num (p.1 : Int), p.2))
       else none)
  | Nat.succ fuel, PMode.fields acc, cs =>
    (match skipWs cs with
     | '"' :: rest =>
       (match parseStrChars rest with
        | some (key, r1) =>
          (match skipWs r1 with
           | ':' :: r2 =>
             (match parseP fuel PMode.val r2 with
              | some (v, r3) =>
                (match skipWs r3 with
                 | ',' :: r4 => parseP fuel (PMode.fields (acc ++ [(String.mk key, v)])) r4
                 | '\x7d' :: r4 => some (Json.obj (acc ++ [(String.mk key, v)]), r4)
                 | _ => none)
              | none => none)
           | _ => none)
        | none => none)
     | _ => none)
  | Nat.succ fuel, PMode.elems acc, cs =>
    (match parseP fuel PMode.val cs with
     | some (v, r1) =>
       (match skipWs r1 with
        | ',' :: r2 => parseP fuel (PMode.elems (acc ++ [v])) r2
        | ']' :: r2 => some (Json.arr (acc ++ [v]), r2)
        | _ => none)
     | none => none)

/-- `serde_json::from_str::<Value>`: parse a complete JSON document
(trailing whitespace allowed, anything else rejected). -/
def Json.parse (s : String) : Option Json :=
  match parseP (2 * s.toList.length + 1) PMode.val s.toList with
  | some (v, r) => if skipWs r = [] then some v else none
  | none => none

/-- `serde_json::from_str::<String>`: parse a complete JSON string literal. -/
def parseJsonStringDoc (cs : List Char) : Option String :=
  match skipWs cs with
  | '"' :: rest =>
    (match parseStrChars rest with
     | some (content, r) => if skipWs r = [] then some (String.mk content) else none
     | none => none)
  | _ => none

/-! ### Embed-page extractors (src/scraper/embed_page.rs) -/

/-- `is_video_blocked`: the embed page signals a video that cannot be played
inline. -/
def is_video_blocked (html : List Char) : Bool :=
  containsSub html "WatchOnInstagram".toList ||
  containsSub html "EmbeddedMediaVideo".toList

/-- The needle located by `extract_shortcode_media_json`. -/
def needleSM : List Char := "\"shortcode_media\":".toList

/-- Brace-depth scanner of `extract_shortcode_media_json`: walks the input
tracking depth, in-string state and a pending escape, and returns the length
of the prefix ending at the brace that closes the first opening brace. -/
def scanBalanced : List Char → Nat → Bool → Bool → Nat → Option Nat
  | [], _, _, _, _ => none
  | _ :: rest, depth, inStr, true, i => scanBalanced rest depth inStr false (i + 1)
  | c :: rest, depth, inStr, false, i =>
    if c = '\\' ∧ inStr then scanBalanced rest depth inStr true (i + 1)
    else if c = '"' then scanBalanced rest depth (!inStr) false (i + 1)
    else if inStr then scanBalanced rest depth inStr false (i + 1)
    else if c = '\x7b' then scanBalanced rest (depth + 1) false false (i + 1)
    else if c = '\x7d' then
      (if depth = 1 then some (i + 1)
       else scanBalanced rest (depth - 1) false false (i + 1))
    else scanBalanced rest depth false false (i + 1)

/-- Balanced-prefix extraction once the opening brace has been located:
scan for the matching closing brace and take the enclosed text. -/
def extractBalanced (objChars : List Char) : Option (List Char) :=
  match scanBalanced objChars 0 false false 0 with
  | none => none
  | some len => some (objChars.take len)

/-- The part of `extract_shortcode_media_json` after the needle: find the
opening brace and extract the balanced object from it. -/
def extractAfterNeedle (rest : List Char) : Option (List Char) :=
  match List.findIdx? (fun c => c = '\x7b') rest with
  | none => none
  | some braceOff => extractBalanced (rest.drop braceOff)

/-- `extract_shortcode_media_json`: locate `"shortcode_media":` and return the
brace-balanced JSON object that follows it. -/
def extract_shortcode_media_json (html : List Char) : Option (List Char) :=
  match findSub needleSM html with
  | none => none
  | some start => extractAfterNeedle (html.drop (start + needleSM.length))

/-- `media_from_node`: convert one media node into a `Media`.
The `as u32` casts on dimensions are the low 32 bits of the `u64` value. -/
def media_from_node (node : Json) : Media :=
  let is_video := ((node.get "is_video").bind Json.as_bool).getD false
  let width :=
    (((node.get "dimensions").bind (fun d => d.get "width")).bind Json.as_u64).map
      (fun w => w % 4294967296)
  let height :=
    (((node.get "dimensions").bind (fun d => d.get "height")).bind Json.as_u64).map
      (fun h => h % 4294967296)
  if is_video then
    { media_type := MediaType.video
      url := ((node.get "video_url").bind Json.as_str).getD ""
      thumbnail_url := (node.get "display_url").bind Json.as_str
      width := width
      height := height }
  else
    { media_type := MediaType.image
      url := ((node.get "display_url").bind Json.as_str).getD ""
      thumbnail_url := none
      width := width
      height := height }

/-- `build_media_list`: one `Media` per carousel child carrying a `node`
field, or a single `Media` from the node itself. -/
def build_media_list (media : Json) : List Media :=
  match ((media.get "edge_sidecar_to_children").bind
          (fun c => c.get "edges")).bind Json.as_array with
  | some children =>
    children.filterMap (fun edge => (edge.get "node").map media_from_node)
  | none => [media_from_node media]

/-- `parse_shortcode_media`: shape a `shortcode_media` JSON node into
`InstaData`. -/
def parse_shortcode_media (media : Json) (post_id : String) : Option InstaData :=
  match ((media.get "owner").bind (fun o => o.get "username")).bind Json.as_str with
  | none => none
  | some username =>
    let caption :=
      (((((media.get "edge_media_to_caption").bind (fun c => c.get "edges")).bind
          Json.as_array).bind List.head?).bind (fun edge => edge.get "node")).bind
        (fun node => (node.get "text").bind Json.as_str)
    let is_video := ((media.get "is_video").bind Json.as_bool).getD false
    let timestamp := ((media.get "taken_at_timestamp").bind Json.as_u64).getD 0
    let like_count :=
      ((media.get "edge_media_preview_like").bind (fun l => l.get "count")).bind
        Json.as_u64
    let comment_count :=
      ((media.get "edge_media_to_comment").bind (fun l => l.get "count")).bind
        Json.as_u64
    let video_view_count := (media.get "video_view_count").bind Json.as_u64
    some
      { post_id := post_id
        username := username
        caption := caption
        media := build_media_list media
        like_count := like_count
        comment_count := comment_count
        is_video := is_video
        video_view_count := video_view_count
        timestamp := timestamp }

/-- `extract_from_json`: brace-balanced extraction followed by JSON parsing
and record shaping. -/
def extract_from_json (html : List Char) (post_id : String) : Option InstaData :=
  match extract_shortcode_media_json html with
  | none => none
  | some objChars =>
    match Json.parse (String.mk objChars) with
    | none => none
    | some j => parse_shortcode_media j post_id

/-- The needle located by `extract_from_context_json`. -/
def ctxNeedle : List Char := "\"contextJSON\":\"".toList

/-- Quote scanner of `extract_from_context_json`: starting after the opening
quote, returns the index of the unescaped closing quote (escape-aware, not
brace counting). -/
def scanQuote : List Char → Bool → Nat → Option Nat
  | [], _, _ => none
  | _ :: rest, true, i => scanQuote rest false (i + 1)
  | c :: rest, false, i =>
    if c = '\\' then scanQuote rest true (i + 1)
    else if c = '"' then some i
    else scanQuote rest false (i + 1)

/-- `extract_from_context_json`: extract the double-encoded `contextJSON`
string, unescape it, parse the inner document and descend through `gql_data`
to the `shortcode_media` (or `xdt_shortcode_media`) node. -/
def extract_from_context_json (html : List Char) (post_id : String) :
    Option InstaData :=
  match findSub ctxNeedle html with
  | none => none
  | some start =>
    let str_start := start + ctxNeedle.length - 1
    match scanQuote (html.drop (str_start + 1)) false 0 with
    | none => none
    | some rel =>
      let json_str := (html.drop str_start).take (rel + 2)
      match parseJsonStringDoc json_str with
      | none => none
      | some inner_str =>
        match Json.parse inner_str with
        | none => none
        | some context =>
          match context.get "gql_data" with
          | none => none
          | some gql_data =>
            match (gql_data.get "shortcode_media").orElse
                (fun _ => gql_data.get "xdt_shortcode_media") with
            | none => none
            | some media => parse_shortcode_media media post_id

/-- `unescape_html_entities`: the five common HTML entities. -/
def unescape_html_entities (s : List Char) : List Char :=
  replaceList
    (replaceList
      (replaceList
        (replaceList
          (replaceList s "&amp;".toList "&".toList)
          "&lt;".toList "<".toList)
        "&gt;".toList ">".toList)
      "&quot;".toList "\"".toList)
    "&#x27;".toList "'".toList
      |> (fun t => replaceList t "&#39;".toList "'".toList)

/-- `extract_attr_from_class`: find the class marker, walk back to the owning
tag's `<`, forward to its `>`, and pull the named attribute's value. -/
def extract_attr_from_class (html class_name attr : List Char) :
    Option (List Char) :=
  match findSub class_name html with
  | none => none
  | some class_pos =>
    let before := html.take class_pos
    match rfindChar before '<' with
    | none => none
    | some tag_start =>
      let tag_region := html.drop tag_start
      match List.findIdx? (fun c => c = '>') tag_region with
      | none => none
      | some tag_end =>
        let tag_str := tag_region.take (tag_end + 1)
        let attr_needle := attr ++ "=\"".toList
        match findSub attr_needle tag_str with
        | none => none
        | some attr_start =>
          let value_start := attr_start + attr_needle.length
          let after_val := tag_str.drop value_start
          match List.findIdx? (fun c => c = '"') after_val with
          | none => none
          | some value_end => some (unescape_html_entities (after_val.take value_end))

/-- `extract_text_from_class`: inner text of the first element carrying the
class marker. -/
def extract_text_from_class (html class_name : List Char) : Option String :=
  match findSub class_name html with
  | none => none
  | some class_pos =>
    let rest := html.drop class_pos
    match List.findIdx? (fun c => c = '>') rest with
    | none => none
    | some tag_close =>
      let content_start := class_pos + tag_close + 1
      let content_rest := html.drop content_start
      match List.findIdx? (fun c => c = '<') content_rest with
      | none => none
      | some next_tag =>
        let text := trimChars (content_rest.take next_tag)
        if text.isEmpty then none else some (String.mk text)

/-- `extract_caption_text`: trailing inline text after the `CaptionUsername`
element's closing tag. -/
def extract_caption_text (html : List Char) : Option String :=
  match findSub "CaptionUsername".toList html with
  | none => none
  | some pos =>
    let rest := html.drop pos
    match findSub "</".toList rest with
    | none => none
    | some first_close =>
      let after_username := rest.drop first_close
      match List.findIdx? (fun c => c = '>') after_username with
      | none => none
      | some idx =>
        let content := after_username.drop (idx + 1)
        let next_tag := (List.findIdx? (fun c => c = '<') content).getD content.length
        let text := trimChars (content.take next_tag)
        if text.isEmpty then none else some (String.mk text)

/-- `extract_from_html`: bare-HTML fallback, always a single dimensionless
image. -/
def extract_from_html (html : List Char) (post_id : String) : Option InstaData :=
  match extract_attr_from_class html "EmbeddedMediaImage".toList "src".toList with
  | none => none
  | some image_url =>
    let username :=
      match extract_text_from_class html "UsernameText".toList with
      | some t => t
      | none => "unknown"
    some
      { post_id := post_id
        username := username
        caption := extract_caption_text html
        media := [{ media_type := MediaType.image
                    url := String.mk image_url
                    thumbnail_url := none
                    width := none
                    height := none }]
        like_count := none
        comment_count := none
        is_video := false
        video_view_count := none
        timestamp := 0 }

/-- `fetch_embed_page` after the HTTP exchange: on a 200 response, try the
three extraction paths in order and pair the result with the video-blocked
flag. -/
def fetch_embed_page (status : Nat) (html : List Char) (post_id : String) :
    Option (InstaData × Bool) :=
  if status ≠ 200 then none
  else
    let video_blocked := is_video_blocked html
    match extract_from_json html post_id with
    | some d => some (d, video_blocked)
    | none =>
      match extract_from_context_json html post_id with
      | some d => some (d, video_blocked)
      | none =>
        match extract_from_html html post_id with
        | some d => some (d, video_blocked)
        | none => none

/-! ### Query-API response parsing (src/scraper/graphql.rs) -/

/-- The data node the query-API response parser descends to:
`data.xdt_shortcode_media` or `data.shortcode_media`. -/
def graphqlDataNode (json : Json) : Option Json :=
  (json.get "data").bind
    (fun d => (d.get "xdt_shortcode_media").orElse
      (fun _ => d.get "shortcode_media"))

/-- Shaping step of `parse_graphql_response` on a parsed document: a missing
or JSON-null data node yields nothing. -/
def graphqlShape (json : Json) (post_id : String) : Option InstaData :=
  match graphqlDataNode json with
  | none => none
  | some media_obj =>
    if media_obj.is_null then none
    else parse_shortcode_media media_obj post_id

/-- `parse_graphql_response`: login walls, parse failures and a JSON-null
data node are all folded into `none`. -/
def parse_graphql_response (text : String) (post_id : String) : Option InstaData :=
  if containsSub text.toList "require_login".toList ∨
     containsSub text.toList "not-logged-in".toList then none
  else
    match Json.parse text with
    | none => none
    | some json => graphqlShape json post_id

/-! ### Shortcode codec (src/utils/instagram.rs) -/

/-- The byte values of `INSTAGRAM_BASE64`
(`A-Z a-z 0-9 - _`, in that order). -/
def igAlphabetBytes : List Nat :=
  ("ABCDEFGHIJKLMNOPQRSTUVWXYZabcdefghijklmnopqrstuvwxyz0123456789-_".toList).map
    Char.toNat

/-- `INSTAGRAM_BASE64.iter().position(|&c| c == ch as u8)`: the comparison is
between bytes, so a character is reduced to its low byte first. -/
def alphaPos (c : Char) : Option Nat :=
  List.findIdx? (fun b => b = c.toNat % 256) igAlphabetBytes

/-- Loop of `code_to_mediaid` with the accumulated `u64`; `checked_mul` /
`checked_add` fail exactly when `64 * acc + pos` leaves the `u64` range. -/
def codeToMediaidAux : Nat → List Char → Option Nat
  | acc, [] => some acc
  | acc, c :: cs =>
    match alphaPos c with
    | none => none
    | some pos =>
      if acc * 64 < 18446744073709551616 ∧
         acc * 64 + pos < 18446744073709551616 then
        codeToMediaidAux (acc * 64 + pos) cs
      else none

/-- `code_to_mediaid`: shortcode to numeric media id with checked
arithmetic. -/
def code_to_mediaid (code : String) : Option Nat :=
  codeToMediaidAux 0 code.toList

/-- The unbounded (mathematical) value of a shortcode, used to state what the
checked loop computes. -/
def codeNatValue (code : String) : Nat :=
  code.toList.foldl (fun acc c => acc * 64 + ((alphaPos c).getD 0)) 0

/-! ### Private-API strategy (src/scraper/papi.rs) -/

/-- `parse_papi_media`: a media node from the private-API response
(first video version, else first image candidate). -/
def parse_papi_media (node : Json) : Option Media :=
  match ((node.get "video_versions").bind Json.as_array).bind List.head? with
  | some best =>
    some
      { media_type := MediaType.video
        url := ((best.get "url").bind Json.as_str).getD ""
        thumbnail_url :=
          (((((node.get "image_versions2").bind
              (fun i => i.get "candidates")).bind Json.as_array).bind
              List.head?).bind (fun img => img.get "url")).bind Json.as_str
        width := ((best.get "width").bind Json.as_u64).map (fun w => w % 4294967296)
        height := ((best.get "height").bind Json.as_u64).map (fun h => h % 4294967296) }
  | none =>
    match (((node.get "image_versions2").bind
        (fun i => i.get "candidates")).bind Json.as_array).bind List.head? with
    | none => none
    | some best =>
      some
        { media_type := MediaType.image
          url := ((best.get "url").bind Json.as_str).getD ""
          thumbnail_url := none
          width := ((best.get "width").bind Json.as_u64).map (fun w => w % 4294967296)
          height := ((best.get "height").bind Json.as_u64).map (fun h => h % 4294967296) }

/-- The media list built by `parse_papi_item`: one entry per parseable
carousel child, else the item itself (possibly empty when unparseable). -/
def papiMediaItems (item : Json) : List Media :=
  match (item.get "carousel_media").bind Json.as_array with
  | some carousel => carousel.filterMap parse_papi_media
  | none =>
    match parse_papi_media item with
    | some m => [m]
    | none => []

/-- `parse_papi_item`: shape the first private-API item into `InstaData`. -/
def parse_papi_item (item : Json) (post_id : String) :
    Except String (Option InstaData) :=
  let username :=
    (((item.get "user").bind (fun u => u.get "username")).bind Json.as_str).getD
      "unknown"
  let media_items := papiMediaItems item
  Except.ok (some
    { post_id := post_id
      username := username
      caption := ((item.get "caption").bind (fun c => c.get "text")).bind Json.as_str
      media := media_items
      like_count := (item.get "like_count").bind Json.as_u64
      comment_count := (item.get "comment_count").bind Json.as_u64
      is_video := (item.get "video_versions").isSome ||
        media_items.any (fun m => m.media_type = MediaType.video)
      video_view_count := (item.get "view_count").bind Json.as_u64
      timestamp := ((item.get "taken_at").bind Json.as_u64).getD 0 })

/-- Body-selection step of `fetch_papi`: use the direct fetch result unless
it failed or carries a login/404 signature, in which case fall back to the
proxied result. -/
def papiText (direct proxied : Except String String) : Option String :=
  match direct with
  | Except.ok t =>
    if ¬ containsSub t.toList "not-logged-in".toList ∧
       ¬ containsSub t.toList "Page Not Found".toList then some t
    else
      match proxied with
      | Except.ok t2 => some t2
      | Except.error _ => none
  | Except.error _ =>
    match proxied with
    | Except.ok t2 => some t2
    | Except.error _ => none

/-- Response-parsing tail of `fetch_papi`: parse the body, find the `items`
array, and shape its first element. -/
def papiParse (text? : Option String) (post_id : String) :
    Except String (Option InstaData) :=
  match text? with
  | none => Except.ok none
  | some text =>
    match Json.parse text with
    | none => Except.ok none
    | some json =>
      match (json.get "items").bind Json.as_array with
      | some items =>
        if items.isEmpty then Except.ok none
        else
          match items.head? with
          | some item => parse_papi_item item post_id
          | none => Except.ok none
      | none => Except.ok none

/-- `fetch_papi` after the HTTP exchanges: `cookie` is the `IG_COOKIE`
secret, `direct` and `proxied` are the observed fetch results (either the
body of a 200 response or an error, as `papi_direct_fetch` /
`papi_proxy_fetch` return them). Every failure is folded into
`Except.ok none`. -/
def fetch_papi (cookie : Option String) (post_id : String)
    (direct proxied : Except String String) : Except String (Option InstaData) :=
  match cookie with
  | none => Except.ok none
  | some _raw =>
    match code_to_mediaid post_id with
    | none => Except.ok none
    | some _media_id => papiParse (papiText direct proxied) post_id

/-! ### Cache (src/scraper/cache.rs) -/

/-- Deserialization of `MediaType` (serde `rename_all = "lowercase"`). -/
def decodeMediaType (j : Json) : Option MediaType :=
  match j.as_str with
  | some "image" => some MediaType.image
  | some "video" => some MediaType.video
  | _ => none

/-- serde's handling of an `Option` field: missing or `null` is `None`, a
value of the wrong shape is an error. -/
def decodeOptStr (j : Json) (key : String) : Option (Option String) :=
  match j.get key with
  | none => some none
  | some Json.null => some none
  | some v =>
    match v.as_str with
    | some s => some (some s)
    | none => none

/-- serde's handling of an `Option<u64>`/`Option<u32>` field. -/
def decodeOptNat (j : Json) (key : String) (bound : Nat) : Option (Option Nat) :=
  match j.get key with
  | none => some none
  | some Json.null => some none
  | some v =>
    match v.as_u64 with
    | some n => if n < bound then some (some n) else none
    | none => none

/-- Deserialization of a `Media` value (field `type` renamed). -/
def decodeMedia (j : Json) : Option Media :=
  match (j.get "type").bind decodeMediaType with
  | none => none
  | some mt =>
    match (j.get "url").bind Json.as_str with
    | none => none
    | some url =>
      match decodeOptStr j "thumbnail_url" with
      | none => none
      | some thumb =>
        match decodeOptNat j "width" 4294967296 with
        | none => none
        | some w =>
          match decodeOptNat j "height" 4294967296 with
          | none => none
          | some h =>
            some { media_type := mt, url := url, thumbnail_url := thumb,
                   width := w, height := h }

/-- Deserialization of an `InstaData` value (serde derive). -/
def decodeInstaData (j : Json) : Option InstaData :=
  match (j.get "post_id").bind Json.as_str with
  | none => none
  | some post_id =>
    match (j.get "username").bind Json.as_str with
    | none => none
    | some username =>
      match decodeOptStr j "caption" with
      | none => none
      | some caption =>
        match ((j.get "media").bind Json.as_array).bind
            (fun xs => xs.mapM decodeMedia) with
        | none => none
        | some media =>
          match decodeOptNat j "like_count" 18446744073709551616 with
          | none => none
          | some like_count =>
            match decodeOptNat j "comment_count" 18446744073709551616 with
            | none => none
            | some comment_count =>
              match (j.get "is_video").bind Json.as_bool with
              | none => none
              | some is_video =>
                match decodeOptNat j "video_view_count" 18446744073709551616 with
                | none => none
                | some video_view_count =>
                  match (j.get "timestamp").bind Json.as_u64 with
                  | none => none
                  | some timestamp =>
                    some { post_id := post_id, username := username,
                           caption := caption, media := media,
                           like_count := like_count,
                           comment_count := comment_count,
                           is_video := is_video,
                           video_view_count := video_view_count,
                           timestamp := timestamp }

/-- `get_cached` given the KV lookup outcome for key `post:{post_id}`:
a stored value that fails to deserialize is an error, which the
orchestrator in turn absorbs. -/
def get_cached (kvRes : Except String (Option String)) :
    Except String (Option InstaData) :=
  match kvRes with
  | Except.error e => Except.error e
  | Except.ok none => Except.ok none
  | Except.ok (some s) =>
    match (Json.parse s).bind decodeInstaData with
    | some d => Except.ok (some d)
    | none => Except.error "cache deserialize error"

/-! ### Resolution orchestrator (src/scraper/mod.rs `fetch_post_data`) -/

/-- The outcomes a single orchestrator run observes from its collaborators:
the KV cache lookup and the three acquisition strategies. -/
structure OrchEnv where
  cacheKv : Except String (Option String)
  embed : Except String (Option (InstaData × Bool))
  graphql : Except String (Option InstaData)
  papi : Except String (Option InstaData)

/-- Which strategies a run invoked, and every record written to the cache. -/
structure Trace where
  embedInvoked : Bool
  graphqlInvoked : Bool
  papiInvoked : Bool
  cacheWrites : List InstaData
  deriving DecidableEq, Repr

/-- The thumbnail-only classification of `fetch_post_data`: exactly one
image item with both dimensions absent. -/
def is_html_fallback (d : InstaData) : Bool :=
  d.media.length = 1 &&
    (match d.media.head? with
     | some m =>
       m.media_type = MediaType.image && m.width.isNone && m.height.isNone
     | none => false)

/-- `data.is_video || media contains a video item` (complete-data signal). -/
def json_extraction_flag (d : InstaData) : Bool :=
  d.is_video || d.media.any (fun m => m.media_type = MediaType.video)

/-- `media contains a video item with a non-empty URL`. -/
def has_video_url_flag (d : InstaData) : Bool :=
  d.media.any (fun m => m.media_type = MediaType.video && !(m.url.isEmpty))

/-- Outcome of step 2 of the orchestrator: either use the embed result
immediately, or continue to the later strategies with an optional retained
fallback. -/
inductive EmbedStep where
  | useNow (d : InstaData)
  | continueWith (fb : Option InstaData)
  deriving DecidableEq

/-- Step 2 of `fetch_post_data` (the embed-page classification). -/
def embedStep : Except String (Option (InstaData × Bool)) → EmbedStep
  | Except.ok (some (d, video_blocked)) =>
    if !video_blocked &&
        (json_extraction_flag d || has_video_url_flag d || !d.media.isEmpty) then
      if !(is_html_fallback d) then EmbedStep.useNow d
      else EmbedStep.continueWith (some d)
    else if video_blocked then EmbedStep.continueWith (some d)
    else EmbedStep.continueWith none
  | _ => EmbedStep.continueWith none

/-- `fetch_post_data`: cache, embed page, GraphQL, private API, retained
embed fallback, in that order; paired with the run's trace. -/
def fetch_post_data (env : OrchEnv) : Except String (Option InstaData) × Trace :=
  match get_cached env.cacheKv with
  | Except.ok (some cached) =>
    (Except.ok (some cached),
     { embedInvoked := false, graphqlInvoked := false, papiInvoked := false,
       cacheWrites := [] })
  | _ =>
    match embedStep env.embed with
    | EmbedStep.useNow d =>
      (Except.ok (some d),
       { embedInvoked := true, graphqlInvoked := false, papiInvoked := false,
         cacheWrites := [d] })
    | EmbedStep.continueWith fb =>
      match env.graphql with
      | Except.ok (some d) =>
        (Except.ok (some d),
         { embedInvoked := true, graphqlInvoked := true, papiInvoked := false,
           cacheWrites := [d] })
      | _ =>
        match env.papi with
        | Except.ok (some d) =>
          (Except.ok (some d),
           { embedInvoked := true, graphqlInvoked := true, papiInvoked := true,
             cacheWrites := [d] })
        | _ =>
          match fb with
          | some d =>
            (Except.ok (some d),
             { embedInvoked := true, graphqlInvoked := true, papiInvoked := true,
               cacheWrites := [d] })
          | none =>
            (Except.ok none,
             { embedInvoked := true, graphqlInvoked := true, papiInvoked := true,
               cacheWrites := [] })

/-! ### Post-id extraction from URL paths (src/utils/instagram.rs) -/

/-- Walker over the non-empty path segments. -/
def extractIdFromSegments : List String → Option String
  | [] => none
  | s :: rest =>
    if s = "p" ∨ s = "reel" ∨ s = "tv" ∨ s = "reels" then rest.head?
    else extractIdFromSegments rest

/-- `extract_post_id`: the segment following `p`, `reel`, `tv` or `reels`. -/
def extract_post_id (path : String) : Option String :=
  extractIdFromSegments
    (((splitOnChar (fun c => c = '/') path.toList).filter
      (fun g => ¬ g.isEmpty)).map String.mk)

/-! ### URL model (the `url` crate as the resolver uses it)

Simplified model of the `url` crate for hierarchical `http(s)` URLs: a
scheme, a non-empty host, a path and an optional query; fragments are
dropped, and dot-segment normalization is applied to paths. This covers the
URLs the share-link resolver manipulates. -/

structure Url where
  scheme : String
  host : String
  path : String
  query : Option String
  deriving DecidableEq, Repr

/-- Dot-segment removal over already-split segments (RFC 3986 §5.2.4,
stack form). -/
def removeDotSegments : List String → List String → List String
  | acc, [] => acc.reverse
  | acc, "." :: rest => removeDotSegments acc rest
  | acc, ".." :: rest => removeDotSegments (acc.drop 1) rest
  | acc, s :: rest => removeDotSegments (s :: acc) rest

/-- Normalize an absolute path string. -/
def normalizePath (p : String) : String :=
  let cs := p.toList
  let segs := ((splitOnChar (fun c => c = '/') cs).filter
    (fun g => ¬ g.isEmpty)).map String.mk
  let segs := removeDotSegments [] segs
  let trailing :=
    "/".toList.isSuffixOf cs ∨ "/.".toList.isSuffixOf cs ∨
    "/..".toList.isSuffixOf cs
  if segs.isEmpty then "/"
  else "/" ++ String.intercalate "/" segs ++ (if trailing then "/" else "")

/-- Split `pathAndMore` (everything after the authority) into normalized
path and query, dropping any fragment. -/
def splitPathQuery (s : List Char) : String × Option String :=
  let noFrag :=
    match List.findIdx? (fun c => c = '#') s with
    | some i => s.take i
    | none => s
  match List.findIdx? (fun c => c = '?') noFrag with
  | some i =>
    (normalizePath (String.mk (noFrag.take i)),
     some (String.mk (noFrag.drop (i + 1))))
  | none => (normalizePath (String.mk noFrag), none)

/-- Is the string a well-formed scheme (`ALPHA *( ALPHA / DIGIT / + / - / . )`)? -/
def validScheme (s : List Char) : Bool :=
  match s with
  | [] => false
  | c :: rest =>
    c.isAlpha && rest.all (fun x => x.isAlphanum ∨ x = '+' ∨ x = '-' ∨ x = '.')

/-- `Url::parse` on absolute hierarchical URLs. -/
def Url.parse (s : String) : Option Url :=
  let cs := s.toList
  match findSub "://".toList cs with
  | none => none
  | some i =>
    let scheme := cs.take i
    if ¬ validScheme scheme then none
    else
      let after := cs.drop (i + 3)
      let hostLen :=
        (List.findIdx? (fun c => c = '/' ∨ c = '?' ∨ c = '#') after).getD
          after.length
      let host := after.take hostLen
      if host.isEmpty then none
      else
        let pq := splitPathQuery (after.drop hostLen)
        some { scheme := String.mk (scheme.map Char.toLower),
               host := String.mk host, path := pq.1, query := pq.2 }

/-- `Url::to_string` (serialization of the model). -/
def Url.toString (u : Url) : String :=
  u.scheme ++ "://" ++ u.host ++ u.path ++
    (match u.query with
     | some q => "?" ++ q
     | none => "")

/-- `Url::join` for the reference shapes the resolver meets:
protocol-relative, absolute-path, query-only, empty and relative-path
references. -/
def Url.join (base : Url) (ref : String) : Option Url :=
  let cs := ref.toList
  match cs with
  | [] => some { base with query := none }
  | '/' :: '/' :: _ => Url.parse (base.scheme ++ ":" ++ ref)
  | '/' :: _ =>
    let pq := splitPathQuery cs
    some { base with path := pq.1, query := pq.2 }
  | '?' :: rest => some { base with query := some (String.mk rest) }
  | '#' :: _ => some { base with query := base.query }
  | _ =>
    let dir :=
      match rfindChar base.path.toList '/' with
      | some i => base.path.toList.take (i + 1)
      | none => "/".toList
    let pq := splitPathQuery (dir ++ cs)
    some { base with path := pq.1, query := pq.2 }

/-! ### Share-link redirect resolver (src/handlers/embed.rs) -/

/-- An observed HTTP response: status and optional `Location` header. -/
structure HttpResp where
  status : Nat
  location : Option String
  deriving DecidableEq, Repr

/-- `Url::parse(&location).or_else(|_| Url::parse(&current).join(&location))`. -/
def resolveLocation (current location : String) : Option Url :=
  match Url.parse location with
  | some u => some u
  | none => (Url.parse current).bind (fun base => base.join location)

/-- Outcome of one loop iteration of `resolve_share_url`: either the loop
returns a result, or it continues from a new URL. -/
inductive StepOutcome where
  | done (r : Except String (Option String))
  | next (url : String)

/-- Id-extraction attempt on a resolved redirect target: return the post id
immediately, or continue following from the resolved URL. -/
def stepPid (resolved : Url) : Option String → StepOutcome
  | some pid => StepOutcome.done (Except.ok (some pid))
  | none => StepOutcome.next resolved.toString

/-- Check the resolved redirect target for a post-id path segment. -/
def stepExtract (resolved : Url) : StepOutcome :=
  stepPid resolved (extract_post_id resolved.path)

/-- Handle the outcome of Location resolution: an unresolvable redirect
breaks the loop with no id. -/
def stepResolved : Option Url → StepOutcome
  | some resolved => stepExtract resolved
  | none => StepOutcome.done (Except.ok none)

/-- Handle the `Location` header of a 3xx response: a missing header breaks
the loop with no id. -/
def stepLoc (current : String) : Option String → StepOutcome
  | some loc => stepResolved (resolveLocation current loc)
  | none => StepOutcome.done (Except.ok none)

/-- Final extraction on a non-redirect response: parse the current URL and
pull a post id from its path. -/
def urlExtract (current : String) : Option String :=
  match Url.parse current with
  | some parsed => extract_post_id parsed.path
  | none => none

/-- One loop iteration of `resolve_share_url` on an observed response. -/
def resolveStep (current : String) (resp : HttpResp) : StepOutcome :=
  if 300 ≤ resp.status ∧ resp.status < 400 then stepLoc current resp.location
  else StepOutcome.done (Except.ok (urlExtract current))

/-- Dispatch on a step outcome: `recur` is the continuation of the loop. -/
def goCont (recur : String → Except String (Option String)) :
    StepOutcome → Except String (Option String)
  | StepOutcome.done r => r
  | StepOutcome.next url => recur url

/-- Dispatch on an observed fetch result: a transport error propagates
(`?` in the source). -/
def goNet (recur : String → Except String (Option String)) (current : String) :
    Except String HttpResp → Except String (Option String)
  | Except.error e => Except.error e
  | Except.ok resp => goCont recur (resolveStep current resp)

/-- Loop of `resolve_share_url`: `net` maps each hop index to the response
(or transport error) observed at that hop, `fuel` is the number of loop
iterations left (`MAX_REDIRECTS = 5` at the start). -/
def resolve_share_go (net : Nat → Except String HttpResp) :
    String → Nat → Nat → Except String (Option String)
  | _, 0, _ => Except.ok none
  | current, Nat.succ fuel, k =>
    goNet (fun url => resolve_share_go net url fuel (k + 1)) current (net k)

/-- `resolve_share_url`: follow up to 5 manual redirects from the
synthesized share URL. -/
def resolve_share_url (share_path : String)
    (net : Nat → Except String HttpResp) : Except String (Option String) :=
  resolve_share_go net ("https://www.instagram.com/" ++ share_path) 5 0

/-! ### Concrete fixtures used by witnesses and counterexamples -/

/-- A thumbnail-only embed-page record (bare-HTML shape). -/
def dEmbedC1 : InstaData :=
  { post_id := "P", username := "embed", caption := none,
    media := [{ media_type := MediaType.image, url := "http://t",
                thumbnail_url := none, width := none, height := none }],
    like_count := none, comment_count := none, is_video := false,
    video_view_count := none, timestamp := 0 }

/-- A richer GraphQL record for the same post. -/
def dGraphqlC1 : InstaData :=
  { post_id := "P", username := "graphql", caption := none,
    media := [{ media_type := MediaType.video, url := "http://v",
                thumbnail_url := some "http://t", width := some 100,
                height := some 100 }],
    like_count := some 3, comment_count := none, is_video := true,
    video_view_count := none, timestamp := 1 }

/-- Run observations refuting C1: the embed page reports `video_blocked`,
and GraphQL has data. -/
def envC1 : OrchEnv :=
  { cacheKv := Except.ok none,
    embed := Except.ok (some (dEmbedC1, true)),
    graphql := Except.ok (some dGraphqlC1),
    papi := Except.ok none }

/-- Run observations for the C1 witness: video blocked, later strategies
empty. -/
def envC1w : OrchEnv :=
  { cacheKv := Except.ok none,
    embed := Except.ok (some (dEmbedC1, true)),
    graphql := Except.ok none,
    papi := Except.error "transport" }

/-- Serialized record as the cache stores it. -/
def cacheJsonC3 : String :=
  "\x7b\"post_id\":\"A\",\"username\":\"u\",\"media\":[],\"is_video\":false,\"timestamp\":0\x7d"

/-- The record `cacheJsonC3` deserializes to. -/
def dCacheC3 : InstaData :=
  { post_id := "A", username := "u", caption := none, media := [],
    like_count := none, comment_count := none, is_video := false,
    video_view_count := none, timestamp := 0 }

/-- Run observations for the C3 witness: cache hit, every strategy erroring
(so any strategy invocation would be visible in the result). -/
def envC3 : OrchEnv :=
  { cacheKv := Except.ok (some cacheJsonC3),
    embed := Except.error "net", graphql := Except.error "net",
    papi := Except.error "net" }

/-- Run observations for the C2 witness: everything fails. -/
def envC2 : OrchEnv :=
  { cacheKv := Except.error "kv", embed := Except.ok none,
    graphql := Except.error "net", papi := Except.ok none }

/-- Minimal embed-page HTML on which the bare-HTML extractor succeeds. -/
def htmlC5 : List Char :=
  "<img class=\"EmbeddedMediaImage\" src=\"http://x\"/>".toList

/-- The record the bare-HTML extractor produces on `htmlC5`. -/
def dC5 : InstaData :=
  { post_id := "P", username := "unknown", caption := none,
    media := [{ media_type := MediaType.image, url := "http://x",
                thumbnail_url := none, width := none, height := none }],
    like_count := none, comment_count := none, is_video := false,
    video_view_count := none, timestamp := 0 }

/-- A carousel node whose single child entry lacks a `node` field. -/
def nodeC6 : Json :=
  Json.obj [("edge_sidecar_to_children",
    Json.obj [("edges", Json.arr [Json.obj []])])]

/-- Two well-formed carousel child entries. -/
def edgesC6w : List Json :=
  [Json.obj [("node", Json.obj [("display_url", Json.str "http://1")])],
   Json.obj [("node", Json.obj [("display_url", Json.str "http://2")])]]

/-- A carousel node whose children all carry `node` fields. -/
def nodeC6w : Json :=
  Json.obj [("edge_sidecar_to_children",
    Json.obj [("edges", Json.arr edgesC6w)])]

/-- A shortcode_media node with a username but no timestamp field. -/
def nodeC9 : Json :=
  Json.obj [("owner", Json.obj [("username", Json.str "alice")])]

/-- A private-API item with media but no `user` field. -/
def itemC9 : Json :=
  Json.obj [("image_versions2",
    Json.obj [("candidates", Json.arr [Json.obj [("url", Json.str "http://i")]])])]

/-- A redirect chain for the C8 witness: three hops that advance without a
post-id segment, then a redirect to a reel URL. -/
def netC8 : Nat → Except String HttpResp := fun k =>
  if k = 0 then Except.ok ⟨302, some "/hop1"⟩
  else if k = 1 then Except.ok ⟨301, some "https://l.instagram.com/hop2"⟩
  else if k = 2 then Except.ok ⟨307, some "/hop3/"⟩
  else if k = 3 then Except.ok ⟨302, some "https://www.instagram.com/reel/ZZ9/"⟩
  else Except.ok ⟨200, none⟩

/-- Escape a document for inclusion in a JSON string value, as the embed
page carries the `contextJSON` payload (quotes and backslashes get a
preceding backslash). -/
def ctxEscape : List Char → List Char
  | [] => []
  | c :: cs => (if c = '"' ∨ c = '\\' then ['\\', c] else [c]) ++ ctxEscape cs

/-- Serializer mode: a single JSON value, the elements of an array, or the
members of an object. -/
inductive SerMode where
  | val (j : Json)
  | elems (l : List Json)
  | fields (l : List (String × Json))

/-- Decimal digits of a natural number; the fuel only bounds the recursion
depth (one unit per digit) and `n + 1` always suffices. -/
def renderNatFuel : Nat → Nat → List Char
  | 0, _ => []
  | Nat.succ fuel, n =>
    if n < 10 then [Nat.digitChar n]
    else renderNatFuel fuel (n / 10) ++ [Nat.digitChar (n % 10)]

/-- Decimal rendering of a natural number. -/
def renderNat (n : Nat) : List Char := renderNatFuel (n + 1) n

/-- Decimal rendering of an integer. -/
def renderInt : Int → List Char
  | Int.ofNat n => renderNat n
  | Int.negSucc m => '-' :: renderNat (m + 1)

/-- JSON text of a `Json` value (compact rendering, strings escaped with
`ctxEscape`). The fuel only bounds the recursion depth — one unit per
structural descent — and `sizeOf` always suffices. -/
def serP : Nat → SerMode → List Char
  | 0, _ => []
  | Nat.succ _, SerMode.val Json.null => "null".toList
  | Nat.succ _, SerMode.val (Json.bool true) => "true".toList
  | Nat.succ _, SerMode.val (Json.bool false) => "false".toList
  | Nat.succ _, SerMode.val (Json.num n) => renderInt n
  | Nat.succ _, SerMode.val (Json.str s) => '"' :: (ctxEscape s.toList ++ ['"'])
  | Nat.succ fuel, SerMode.val (Json.arr elems) =>
    '[' :: (serP fuel (SerMode.elems elems) ++ [']'])
  | Nat.succ fuel, SerMode.val (Json.obj fields) =>
    '\x7b' :: (serP fuel (SerMode.fields fields) ++ ['\x7d'])
  | Nat.succ _, SerMode.elems [] => []
  | Nat.succ fuel, SerMode.elems [j] => serP fuel (SerMode.val j)
  | Nat.succ fuel, SerMode.elems (j :: j2 :: rest) =>
    serP fuel (SerMode.val j) ++ (',' :: serP fuel (SerMode.elems (j2 :: rest)))
  | Nat.succ _, SerMode.fields [] => []
  | Nat.succ fuel, SerMode.fields [(k, v)] =>
    '"' :: (ctxEscape k.toList ++ ('"' :: (':' :: serP fuel (SerMode.val v))))
  | Nat.succ fuel, SerMode.fields ((k, v) :: f2 :: rest) =>
    '"' :: (ctxEscape k.toList ++ ('"' :: (':' ::
      (serP fuel (SerMode.val v) ++
        (',' :: serP fuel (SerMode.fields (f2 :: rest)))))))

mutual

/-- Structural size of a `Json` value (leaves weigh 2), used as fuel for the
serializer; it always exceeds the recursion depth `serP` needs. -/
def jsonSize : Json → Nat
  | Json.null => 2
  | Json.bool _ => 2
  | Json.num _ => 2
  | Json.str _ => 2
  | Json.arr l => jsonSizeList l + 2
  | Json.obj l => jsonSizeFields l + 2
termination_by structural j => j

def jsonSizeList : List Json → Nat
  | [] => 0
  | j :: rest => jsonSize j + jsonSizeList rest
termination_by structural l => l

def jsonSizeFields : List (String × Json) → Nat
  | [] => 0
  | (_, v) :: rest => jsonSize v + jsonSizeFields rest
termination_by structural l => l

end

/-- JSON text of a value. -/
def serializeJson (j : Json) : List Char := serP (jsonSize j) (SerMode.val j)

/-- C4 witness object: nested object whose string value holds an escaped
quote, an escaped backslash and an unescaped closing brace, plus an array,
numbers, a bool and a null. -/
def c4ObjW : Json :=
  Json.obj [("owner", Json.obj [("username", Json.str "a\"\\\x7db")]),
    ("dimensions", Json.arr [Json.num 640, Json.num 480]),
    ("is_video", Json.bool false), ("caption", Json.null)]

/-- C4 witness page: leading script content (with an unrelated braced
fragment), the needle, a one-space gap, the serialized object, and trailing
content. -/
def c4HtmlW : List Char :=
  "<script>data = \x7b\"k\":1\x7d; x = ".toList ++
    (needleSM ++ (" ".toList ++ (serializeJson c4ObjW ++ "\x7d;</script>".toList)))

/-- The inner JSON document of the C7 payload (a `gql_data` wrapper around a
`shortcode_media` node). -/
def innerDocC7 : String :=
  "\x7b\"gql_data\":\x7b\"shortcode_media\":\x7b\"owner\":\x7b\"username\":\"al\"\x7d\x7d\x7d\x7d"

/-- The C7 embed-page fragment: a `contextJSON` field whose string value is
the escaped inner document. -/
def ctxHtmlC7 : List Char :=
  "\"contextJSON\":\"".toList ++ ctxEscape innerDocC7.toList ++ ['"']

/-- The record the double-encoded extractor produces on `ctxHtmlC7`: the
media list is the single image built from the node itself (whose missing
display URL defaults to the empty string). -/
def dC7 : InstaData :=
  { post_id := "PID", username := "al", caption := none,
    media := [{ media_type := MediaType.image, url := "",
                thumbnail_url := none, width := none, height := none }],
    like_count := none, comment_count := none, is_video := false,
    video_view_count := none, timestamp := 0 }

/-! ### Theorems -/

/-- C1 (counterexample): with a cache miss, an embed-page result flagged
`video_blocked` and GraphQL holding data, the orchestrator invokes the
query-API strategy and returns (and caches) the GraphQL record, not the
embed record — the claimed immediate return does not happen. -/
theorem c1_counterexample :
    (fetch_post_data envC1).2.graphqlInvoked = true ∧
    (fetch_post_data envC1).1 = Except.ok (some dGraphqlC1) ∧
    dGraphqlC1 ≠ dEmbedC1 ∧
    (fetch_post_data envC1).2.cacheWrites = [dGraphqlC1] := by
  refine ⟨rfl, rfl, ?_, rfl⟩
  decide

/-- C1 (amended): whenever the embed-page strategy returns a record and the
page indicates the video cannot be played inline, the orchestrator retains
the record as a low-confidence fallback and continues: the query-API
strategy is always invoked, and the embed record is cached and returned
only if neither the query-API nor the private-API strategy yields data. -/
theorem c1_video_blocked_is_fallback (env : OrchEnv) (d : InstaData)
    (hmiss : ∀ c, get_cached env.cacheKv ≠ Except.ok (some c))
    (hembed : env.embed = Except.ok (some (d, true))) :
    (fetch_post_data env).2.graphqlInvoked = true ∧
    ((∀ x, env.graphql ≠ Except.ok (some x)) →
      (∀ x, env.papi ≠ Except.ok (some x)) →
      (fetch_post_data env).1 = Except.ok (some d) ∧
      (fetch_post_data env).2.cacheWrites = [d] ∧
      (fetch_post_data env).2.papiInvoked = true) := by
  have hstep : embedStep env.embed = EmbedStep.continueWith (some d) := by
    rw [hembed]; simp [embedStep]
  unfold fetch_post_data
  rcases hcc : get_cached env.cacheKv with e | v
  · rw [hstep]
    rcases hgq : env.graphql with e2 | v2
    · rcases hp : env.papi with e3 | v3
      · exact ⟨rfl, fun _ _ => ⟨rfl, rfl, rfl⟩⟩
      · rcases v3 with _ | x3
        · exact ⟨rfl, fun _ _ => ⟨rfl, rfl, rfl⟩⟩
        · exact ⟨rfl, fun _ hpapi => absurd rfl (hpapi x3)⟩
    · rcases v2 with _ | x2
      · rcases hp : env.papi with e3 | v3
        · exact ⟨rfl, fun _ _ => ⟨rfl, rfl, rfl⟩⟩
        · rcases v3 with _ | x3
          · exact ⟨rfl, fun _ _ => ⟨rfl, rfl, rfl⟩⟩
          · exact ⟨rfl, fun _ hpapi => absurd rfl (hpapi x3)⟩
      · exact ⟨rfl, fun hgql _ => absurd rfl (hgql x2)⟩
  · rcases v with _ | c
    · rw [hstep]
      rcases hgq : env.graphql with e2 | v2
      · rcases hp : env.papi with e3 | v3
        · exact ⟨rfl, fun _ _ => ⟨rfl, rfl, rfl⟩⟩
        · rcases v3 with _ | x3
          · exact ⟨rfl, fun _ _ => ⟨rfl, rfl, rfl⟩⟩
          · exact ⟨rfl, fun _ hpapi => absurd rfl (hpapi x3)⟩
      · rcases v2 with _ | x2
        · rcases hp : env.papi with e3 | v3
          · exact ⟨rfl, fun _ _ => ⟨rfl, rfl, rfl⟩⟩
          · rcases v3 with _ | x3
            · exact ⟨rfl, fun _ _ => ⟨rfl, rfl, rfl⟩⟩
            · exact ⟨rfl, fun _ hpapi => absurd rfl (hpapi x3)⟩
        · exact ⟨rfl, fun hgql _ => absurd rfl (hgql x2)⟩
    · exact absurd hcc (hmiss c)

/-- C1 (witness): the amended claim at a concrete run. -/
theorem c1_video_blocked_is_fallback_witness :
    (fetch_post_data envC1w).2.graphqlInvoked = true ∧
    (fetch_post_data envC1w).1 = Except.ok (some dEmbedC1) ∧
    (fetch_post_data envC1w).2.cacheWrites = [dEmbedC1] ∧
    (fetch_post_data envC1w).2.papiInvoked = true := by
  have h := c1_video_blocked_is_fallback envC1w dEmbedC1
    (by intro c hc; simp [envC1w, get_cached] at hc) rfl
  have h2 := h.2 (by intro x hx; simp [envC1w] at hx)
    (by intro x hx; simp [envC1w] at hx)
  exact ⟨h.1, h2.1, h2.2.1, h2.2.2⟩

/-- C2: strategy-level failures are absorbed. The orchestrator's result is
always `Except.ok`; a `none` result implies the embed step retained nothing
(no usable data and no fallback), GraphQL and the private API produced no
data, and all three strategies were invoked. `fetch_papi` is likewise total
(`Except.ok`), returns no data without a credential, a non-200 embed page
yields nothing, and GraphQL parse failures, login walls and a null data node
yield nothing. -/
theorem c2_failures_absorbed :
    (∀ env, ∃ v, (fetch_post_data env).1 = Except.ok v) ∧
    (∀ env, (fetch_post_data env).1 = Except.ok none →
      embedStep env.embed = EmbedStep.continueWith none ∧
      (∀ d, env.graphql ≠ Except.ok (some d)) ∧
      (∀ d, env.papi ≠ Except.ok (some d)) ∧
      (fetch_post_data env).2.embedInvoked = true ∧
      (fetch_post_data env).2.graphqlInvoked = true ∧
      (fetch_post_data env).2.papiInvoked = true) ∧
    (∀ cookie pid direct proxied, ∃ v,
      fetch_papi cookie pid direct proxied = Except.ok v) ∧
    (∀ pid direct proxied, fetch_papi none pid direct proxied = Except.ok none) ∧
    (∀ status html pid, status ≠ 200 → fetch_embed_page status html pid = none) ∧
    (∀ text pid, Json.parse text = none → parse_graphql_response text pid = none) ∧
    (∀ text pid,
      containsSub text.toList "require_login".toList = true →
      parse_graphql_response text pid = none) ∧
    (∀ text pid json, Json.parse text = some json →
      graphqlDataNode json = some Json.null →
      parse_graphql_response text pid = none) := by
  refine ⟨?_, ?_, ?_, ?_, ?_, ?_, ?_, ?_⟩
  · intro env
    unfold fetch_post_data
    rcases get_cached env.cacheKv with e | v
    · rcases embedStep env.embed with d | fb
      · exact ⟨some d, rfl⟩
      · rcases env.graphql with e2 | v2
        · rcases env.papi with e3 | v3
          · rcases fb with _ | d <;> exact ⟨_, rfl⟩
          · rcases v3 with _ | d3
            · rcases fb with _ | d <;> exact ⟨_, rfl⟩
            · exact ⟨_, rfl⟩
        · rcases v2 with _ | d2
          · rcases env.papi with e3 | v3
            · rcases fb with _ | d <;> exact ⟨_, rfl⟩
            · rcases v3 with _ | d3
              · rcases fb with _ | d <;> exact ⟨_, rfl⟩
              · exact ⟨_, rfl⟩
          · exact ⟨_, rfl⟩
    · rcases v with _ | c
      · rcases embedStep env.embed with d | fb
        · exact ⟨some d, rfl⟩
        · rcases env.graphql with e2 | v2
          · rcases env.papi with e3 | v3
            · rcases fb with _ | d <;> exact ⟨_, rfl⟩
            · rcases v3 with _ | d3
              · rcases fb with _ | d <;> exact ⟨_, rfl⟩
              · exact ⟨_, rfl⟩
          · rcases v2 with _ | d2
            · rcases env.papi with e3 | v3
              · rcases fb with _ | d <;> exact ⟨_, rfl⟩
              · rcases v3 with _ | d3
                · rcases fb with _ | d <;> exact ⟨_, rfl⟩
                · exact ⟨_, rfl⟩
            · exact ⟨_, rfl⟩
      · exact ⟨_, rfl⟩
  · intro env hnone
    unfold fetch_post_data at hnone ⊢
    rcases hcc : get_cached env.cacheKv with e | v <;> rw [hcc] at hnone
    case ok =>
      rcases v with _ | c
      all_goals clear hcc
      case some => simp at hnone
      rcases hst : embedStep env.embed with d | fb <;> rw [hst] at hnone
      case useNow => simp at hnone
      rcases hgq : env.graphql with e2 | v2 <;> rw [hgq] at hnone
      case ok =>
        rcases v2 with _ | d2
        case some => simp at hnone
        rcases hp : env.papi with e3 | v3 <;> rw [hp] at hnone
        case ok =>
          rcases v3 with _ | d3
          case some => simp at hnone
          rcases fb with _ | d
          case some => simp at hnone
          refine ⟨rfl, ?_, ?_, rfl, rfl, rfl⟩
          · intro d hd; simp at hd
          · intro d hd; simp at hd
        case error =>
          rcases fb with _ | d
          case some => simp at hnone
          refine ⟨rfl, ?_, ?_, rfl, rfl, rfl⟩
          · intro d hd; simp at hd
          · intro d hd; simp at hd
      case error =>
        rcases hp : env.papi with e3 | v3 <;> rw [hp] at hnone
        case ok =>
          rcases v3 with _ | d3
          case some => simp at hnone
          rcases fb with _ | d
          case some => simp at hnone
          refine ⟨rfl, ?_, ?_, rfl, rfl, rfl⟩
          · intro d hd; simp at hd
          · intro d hd; simp at hd
        case error =>
          rcases fb with _ | d
          case some => simp at hnone
          refine ⟨rfl, ?_, ?_, rfl, rfl, rfl⟩
          · intro d hd; simp at hd
          · intro d hd; simp at hd
    case error =>
      clear hcc
      rcases hst : embedStep env.embed with d | fb <;> rw [hst] at hnone
      case useNow => simp at hnone
      rcases hgq : env.graphql with e2 | v2 <;> rw [hgq] at hnone
      case ok =>
        rcases v2 with _ | d2
        case some => simp at hnone
        rcases hp : env.papi with e3 | v3 <;> rw [hp] at hnone
        case ok =>
          rcases v3 with _ | d3
          case some => simp at hnone
          rcases fb with _ | d
          case some => simp at hnone
          refine ⟨rfl, ?_, ?_, rfl, rfl, rfl⟩
          · intro d hd; simp at hd
          · intro d hd; simp at hd
        case error =>
          rcases fb with _ | d
          case some => simp at hnone
          refine ⟨rfl, ?_, ?_, rfl, rfl, rfl⟩
          · intro d hd; simp at hd
          · intro d hd; simp at hd
      case error =>
        rcases hp : env.papi with e3 | v3 <;> rw [hp] at hnone
        case ok =>
          rcases v3 with _ | d3
          case some => simp at hnone
          rcases fb with _ | d
          case some => simp at hnone
          refine ⟨rfl, ?_, ?_, rfl, rfl, rfl⟩
          · intro d hd; simp at hd
          · intro d hd; simp at hd
        case error =>
          rcases fb with _ | d
          case some => simp at hnone
          refine ⟨rfl, ?_, ?_, rfl, rfl, rfl⟩
          · intro d hd; simp at hd
          · intro d hd; simp at hd
  · intro cookie pid direct proxied
    have hpp : ∀ t?, ∃ v, papiParse t? pid = Except.ok v := by
      intro t?
      unfold papiParse
      split
      · exact ⟨none, rfl⟩
      · split
        · exact ⟨none, rfl⟩
        · split
          · split
            · exact ⟨none, rfl⟩
            · split
              · unfold parse_papi_item; exact ⟨_, rfl⟩
              · exact ⟨none, rfl⟩
          · exact ⟨none, rfl⟩
    unfold fetch_papi
    split
    · exact ⟨none, rfl⟩
    · split
      · exact ⟨none, rfl⟩
      · exact hpp (papiText direct proxied)
  · intro pid direct proxied; rfl
  · intro status html pid h
    unfold fetch_embed_page
    simp [h]
  · intro text pid h
    unfold parse_graphql_response
    split
    · rfl
    · rw [h]
  · intro text pid h
    unfold parse_graphql_response
    split
    · rfl
    · rename_i hcond
      exact absurd (Or.inl h) hcond
  · intro text pid json hparse hnull
    unfold parse_graphql_response
    split
    · rfl
    · rw [hparse]
      show graphqlShape json pid = none
      unfold graphqlShape
      rw [hnull]
      rfl

/-- C2 (witness): a fully failing run yields `Except.ok none` with every
strategy invoked and none of them holding data. -/
theorem c2_failures_absorbed_witness :
    embedStep envC2.embed = EmbedStep.continueWith none ∧
    (∀ d, envC2.graphql ≠ Except.ok (some d)) ∧
    (∀ d, envC2.papi ≠ Except.ok (some d)) ∧
    (fetch_post_data envC2).2.embedInvoked = true ∧
    (fetch_post_data envC2).2.graphqlInvoked = true ∧
    (fetch_post_data envC2).2.papiInvoked = true :=
  c2_failures_absorbed.2.1 envC2 rfl

/-- C3: a cache hit (the KV store holds a deserializable record under the
post's key) is returned immediately: no acquisition strategy is invoked and
nothing is written back. -/
theorem c3_cache_hit_short_circuits (env : OrchEnv) (s : String) (d : InstaData)
    (hkv : env.cacheKv = Except.ok (some s))
    (hdec : (Json.parse s).bind decodeInstaData = some d) :
    (fetch_post_data env).1 = Except.ok (some d) ∧
    (fetch_post_data env).2.embedInvoked = false ∧
    (fetch_post_data env).2.graphqlInvoked = false ∧
    (fetch_post_data env).2.papiInvoked = false ∧
    (fetch_post_data env).2.cacheWrites = [] := by
  have hc : get_cached env.cacheKv = Except.ok (some d) := by
    rw [hkv]
    show (match (Json.parse s).bind decodeInstaData with
          | some d => Except.ok (some d)
          | none => Except.error "cache deserialize error") = Except.ok (some d)
    rw [hdec]
  unfold fetch_post_data
  rw [hc]
  exact ⟨rfl, rfl, rfl, rfl, rfl⟩

/-- C3 (witness): the cache hit at a concrete run in which every strategy
would error if consulted. -/
theorem c3_cache_hit_short_circuits_witness :
    (fetch_post_data envC3).1 = Except.ok (some dCacheC3) ∧
    (fetch_post_data envC3).2.embedInvoked = false ∧
    (fetch_post_data envC3).2.graphqlInvoked = false ∧
    (fetch_post_data envC3).2.papiInvoked = false ∧
    (fetch_post_data envC3).2.cacheWrites = [] :=
  c3_cache_hit_short_circuits envC3 cacheJsonC3 dCacheC3 rfl (by decide)

/-- Decimal digit characters are not quotes or braces. -/
theorem digitChar_ne_special (d : Nat) (hd : d < 10) :
    Nat.digitChar d ≠ '"' ∧ Nat.digitChar d ≠ '\x7b' ∧ Nat.digitChar d ≠ '\x7d' := by
  interval_cases d <;> exact (by decide)

/-- Every character of a rendered natural number is a digit, hence not a
quote or a brace. -/
theorem renderNatFuel_chars (fuel : Nat) :
    ∀ (n : Nat), ∀ c ∈ renderNatFuel fuel n,
      c ≠ '"' ∧ c ≠ '\x7b' ∧ c ≠ '\x7d' := by
  induction fuel with
  | zero => intro n c hc; simp [renderNatFuel] at hc
  | succ fuel ih =>
    intro n c hc
    simp only [renderNatFuel] at hc
    by_cases hn : n < 10
    · rw [if_pos hn] at hc
      simp only [List.mem_singleton] at hc
      subst hc
      exact digitChar_ne_special n hn
    · rw [if_neg hn] at hc
      rcases List.mem_append.mp hc with h | h
      · exact ih (n / 10) c h
      · simp only [List.mem_singleton] at h
        subst h
        exact digitChar_ne_special (n % 10) (Nat.mod_lt n (by norm_num))

/-- Every character of a rendered integer is a digit or the minus sign,
hence not a quote or a brace. -/
theorem renderInt_chars (n : Int) :
    ∀ c ∈ renderInt n, c ≠ '"' ∧ c ≠ '\x7b' ∧ c ≠ '\x7d' := by
  cases n with
  | ofNat m => exact fun c hc => renderNatFuel_chars (m + 1) m c hc
  | negSucc m =>
    intro c hc
    rcases List.mem_cons.mp hc with hc | hc
    · subst hc; exact (by decide)
    · exact renderNatFuel_chars (m + 1 + 1) (m + 1) c hc

/-- Outside a string, the brace scanner steps over any character that is not
a quote or a brace, leaving depth and state unchanged. -/
theorem scanBalanced_step_plain (c : Char) (rest : List Char) (d i : Nat)
    (h1 : c ≠ '"') (h2 : c ≠ '\x7b') (h3 : c ≠ '\x7d') :
    scanBalanced (c :: rest) d false false i =
      scanBalanced rest d false false (i + 1) := by
  simp [scanBalanced, h1, h2, h3]

/-- Outside a string, a quote puts the brace scanner into in-string state. -/
theorem scanBalanced_open_quote (rest : List Char) (d i : Nat) :
    scanBalanced ('"' :: rest) d false false i =
      scanBalanced rest d true false (i + 1) := rfl

/-- Inside a string, an unescaped quote returns the brace scanner to
out-of-string state. -/
theorem scanBalanced_close_quote (rest : List Char) (d i : Nat) :
    scanBalanced ('"' :: rest) d true false i =
      scanBalanced rest d false false (i + 1) := rfl

/-- Outside a string, an opening brace increments the scanner's depth. -/
theorem scanBalanced_open_brace (rest : List Char) (d i : Nat) :
    scanBalanced ('\x7b' :: rest) d false false i =
      scanBalanced rest (d + 1) false false (i + 1) := rfl

/-- At depth one, a closing brace outside a string ends the scan, returning
the position just past it. -/
theorem scanBalanced_close_at_one (rest : List Char) (i : Nat) :
    scanBalanced ('\x7d' :: rest) 1 false false i = some (i + 1) := rfl

/-- Above depth one, a closing brace outside a string decrements the
scanner's depth. -/
theorem scanBalanced_close_brace (rest : List Char) (d i : Nat) (hd : d ≠ 1) :
    scanBalanced ('\x7d' :: rest) d false false i =
      scanBalanced rest (d - 1) false false (i + 1) := by
  show (if d = 1 then some (i + 1)
    else scanBalanced rest (d - 1) false false (i + 1)) = _
  rw [if_neg hd]

/-- The brace scanner skips a run of characters free of quotes and braces,
advancing only its position. -/
theorem scanBalanced_skip_plain (u rest : List Char) (d : Nat)
    (hu : ∀ c ∈ u, c ≠ '"' ∧ c ≠ '\x7b' ∧ c ≠ '\x7d') (i : Nat) :
    scanBalanced (u ++ rest) d false false i =
      scanBalanced rest d false false (i + u.length) := by
  induction u generalizing i with
  | nil => simp
  | cons c cs ih =>
    obtain ⟨h1, h2, h3⟩ := hu c (List.mem_cons_self c cs)
    have hcs : ∀ x ∈ cs, x ≠ '"' ∧ x ≠ '\x7b' ∧ x ≠ '\x7d' :=
      fun x hx => hu x (List.mem_cons_of_mem c hx)
    rw [List.cons_append, scanBalanced_step_plain c (cs ++ rest) d i h1 h2 h3,
      ih hcs (i + 1)]
    congr 1
    simp only [List.length_cons]
    omega

/-- While in a string, the brace scanner consumes the escaped rendering of
arbitrary text — backslash-escapes included — without leaving the string or
touching depth: each escaping backslash sets the escape flag and the escaped
quote or backslash is then skipped. -/
theorem scanBalanced_skip_escaped (s rest : List Char) (d : Nat) (i : Nat) :
    scanBalanced (ctxEscape s ++ rest) d true false i =
      scanBalanced rest d true false (i + (ctxEscape s).length) := by
  induction s generalizing i with
  | nil => simp [ctxEscape]
  | cons c cs ih =>
    by_cases hc : c = '"' ∨ c = '\\'
    · have h1 : ctxEscape (c :: cs) = '\\' :: (c :: ctxEscape cs) := by
        simp [ctxEscape, hc]
      rw [h1]
      have h2 : scanBalanced (('\\' :: (c :: ctxEscape cs)) ++ rest) d true false i =
          scanBalanced (ctxEscape cs ++ rest) d true false (i + 1 + 1) := rfl
      rw [h2, ih (i + 1 + 1)]
      congr 1
      simp only [List.length_cons]
      omega
    · push_neg at hc
      have h1 : ctxEscape (c :: cs) = c :: ctxEscape cs := by
        simp [ctxEscape, hc.1, hc.2]
      rw [h1]
      have h2 : scanBalanced ((c :: ctxEscape cs) ++ rest) d true false i =
          scanBalanced (ctxEscape cs ++ rest) d true false (i + 1) := by
        show scanBalanced (c :: (ctxEscape cs ++ rest)) d true false i = _
        simp [scanBalanced, hc.1, hc.2]
      rw [h2, ih (i + 1)]
      congr 1
      simp only [List.length_cons]
      omega

/-- At any depth at least one, the brace scanner consumes the serialized
text of any JSON value, element list or member list — nested objects,
arrays, strings with escapes, numbers, booleans and null — returning to the
same depth and state, having advanced exactly by its length. -/
theorem scanBalanced_serP (fuel : Nat) :
    ∀ (mode : SerMode) (rest : List Char) (d i : Nat), 1 ≤ d →
    scanBalanced (serP fuel mode ++ rest) d false false i =
      scanBalanced rest d false false (i + (serP fuel mode).length) := by
  induction fuel with
  | zero => intro mode rest d i _; simp [serP]
  | succ fuel ih =>
    intro mode rest d i hd
    cases mode with
    | val j =>
      cases j with
      | null => exact scanBalanced_skip_plain ("null".toList) rest d (by decide) i
      | bool b =>
        cases b with
        | false => exact scanBalanced_skip_plain ("false".toList) rest d (by decide) i
        | true => exact scanBalanced_skip_plain ("true".toList) rest d (by decide) i
      | num n => exact scanBalanced_skip_plain (renderInt n) rest d (renderInt_chars n) i
      | str s =>
        rw [show serP (fuel + 1) (SerMode.val (Json.str s)) =
          '"' :: (ctxEscape s.toList ++ ['"']) from rfl]
        simp only [List.cons_append, List.append_assoc, List.singleton_append,
          List.length_cons, List.length_append, List.length_singleton,
          List.length_nil]
        rw [scanBalanced_open_quote, scanBalanced_skip_escaped,
          scanBalanced_close_quote]
        congr 1
        omega
      | arr l =>
        rw [show serP (fuel + 1) (SerMode.val (Json.arr l)) =
          '[' :: (serP fuel (SerMode.elems l) ++ [']']) from rfl]
        simp only [List.cons_append, List.append_assoc, List.singleton_append,
          List.length_cons, List.length_append, List.length_singleton,
          List.length_nil]
        rw [scanBalanced_step_plain '[' _ d _ (by decide) (by decide) (by decide),
          ih (SerMode.elems l) _ d _ hd,
          scanBalanced_step_plain ']' _ d _ (by decide) (by decide) (by decide)]
        congr 1
        omega
      | obj l =>
        rw [show serP (fuel + 1) (SerMode.val (Json.obj l)) =
          '\x7b' :: (serP fuel (SerMode.fields l) ++ ['\x7d']) from rfl]
        simp only [List.cons_append, List.append_assoc, List.singleton_append,
          List.length_cons, List.length_append, List.length_singleton,
          List.length_nil]
        rw [scanBalanced_open_brace,
          ih (SerMode.fields l) _ (d + 1) _ (by omega),
          scanBalanced_close_brace _ (d + 1) _ (by omega)]
        rw [show d + 1 - 1 = d from by omega]
        congr 1
        omega
    | elems l =>
      cases l with
      | nil => simp [serP]
      | cons j l2 =>
        cases l2 with
        | nil =>
          rw [show serP (fuel + 1) (SerMode.elems [j]) =
            serP fuel (SerMode.val j) from rfl]
          exact ih (SerMode.val j) rest d i hd
        | cons j2 r =>
          rw [show serP (fuel + 1) (SerMode.elems (j :: j2 :: r)) =
            serP fuel (SerMode.val j) ++
              (',' :: serP fuel (SerMode.elems (j2 :: r))) from rfl]
          simp only [List.cons_append, List.append_assoc,
            List.length_cons, List.length_append, List.length_nil]
          rw [ih (SerMode.val j) _ d _ hd,
            scanBalanced_step_plain ',' _ d _ (by decide) (by decide) (by decide),
            ih (SerMode.elems (j2 :: r)) _ d _ hd]
          congr 1
          omega
    | fields l =>
      cases l with
      | nil => simp [serP]
      | cons kv l2 =>
        obtain ⟨k, v⟩ := kv
        cases l2 with
        | nil =>
          rw [show serP (fuel + 1) (SerMode.fields [(k, v)]) =
            '"' :: (ctxEscape k.toList ++
              ('"' :: (':' :: serP fuel (SerMode.val v)))) from rfl]
          simp only [List.cons_append, List.append_assoc,
            List.length_cons, List.length_append, List.length_nil]
          rw [scanBalanced_open_quote, scanBalanced_skip_escaped,
            scanBalanced_close_quote,
            scanBalanced_step_plain ':' _ d _ (by decide) (by decide) (by decide),
            ih (SerMode.val v) _ d _ hd]
          congr 1
          omega
        | cons kv2 r =>
          rw [show serP (fuel + 1) (SerMode.fields ((k, v) :: kv2 :: r)) =
            '"' :: (ctxEscape k.toList ++ ('"' :: (':' ::
              (serP fuel (SerMode.val v) ++
                (',' :: serP fuel (SerMode.fields (kv2 :: r))))))) from rfl]
          simp only [List.cons_append, List.append_assoc,
            List.length_cons, List.length_append, List.length_nil]
          rw [scanBalanced_open_quote, scanBalanced_skip_escaped,
            scanBalanced_close_quote,
            scanBalanced_step_plain ':' _ d _ (by decide) (by decide) (by decide),
            ih (SerMode.val v) _ d _ hd,
            scanBalanced_step_plain ',' _ d _ (by decide) (by decide) (by decide),
            ih (SerMode.fields (kv2 :: r)) _ d _ hd]
          congr 1
          omega

/-- Started at depth zero on the serialized text of any JSON object, the
brace scanner stops exactly at the object's matching closing brace and
returns the serialization's length. -/
theorem scanBalanced_serObj (fuel : Nat) (l : List (String × Json)) (rest : List Char) :
    scanBalanced (serP (fuel + 1) (SerMode.val (Json.obj l)) ++ rest) 0 false false 0 =
      some (serP (fuel + 1) (SerMode.val (Json.obj l))).length := by
  rw [show serP (fuel + 1) (SerMode.val (Json.obj l)) =
    '\x7b' :: (serP fuel (SerMode.fields l) ++ ['\x7d']) from rfl]
  simp only [List.cons_append, List.append_assoc, List.singleton_append,
    List.length_cons, List.length_append, List.length_nil]
  rw [scanBalanced_open_brace,
    scanBalanced_serP fuel (SerMode.fields l) _ 1 _ (by omega),
    scanBalanced_close_at_one]
  congr 1
  omega

/-- Index search for the opening brace, with accumulator: past a brace-free
run, the first brace is found at the run's length plus the start index. -/
theorem findIdx_gap_aux (gap tail : List Char)
    (hgap : ∀ c ∈ gap, c ≠ '\x7b') :
    ∀ s : Nat, List.findIdx? (fun c => c = '\x7b') (gap ++ ('\x7b' :: tail)) s =
      some (gap.length + s) := by
  induction gap with
  | nil => intro s; simp [List.findIdx?]
  | cons c cs ih =>
    intro s
    have hc : ¬(c = '\x7b') := hgap c (List.mem_cons_self c cs)
    have hcs : ∀ x ∈ cs, x ≠ '\x7b' := fun x hx => hgap x (List.mem_cons_of_mem c hx)
    rw [List.cons_append, List.findIdx?_cons]
    simp only [hc, decide_False, Bool.false_eq_true, if_false]
    rw [ih hcs (s + 1)]
    congr 1
    simp only [List.length_cons]
    omega

/-- After any brace-free run, the first opening brace is found exactly at
the run's length. -/
theorem findIdx_gap (gap tail : List Char) (hgap : ∀ c ∈ gap, c ≠ '\x7b') :
    List.findIdx? (fun c => c = '\x7b') (gap ++ ('\x7b' :: tail)) = some gap.length := by
  rw [findIdx_gap_aux gap tail hgap 0]
  rfl

/-- When the scan from the opening brace stops exactly at the end of the
object text, balanced extraction returns exactly that text, whatever
follows. -/
theorem extractBalanced_exact (obj rest : List Char)
    (hscan : scanBalanced (obj ++ rest) 0 false false 0 = some obj.length) :
    extractBalanced (obj ++ rest) = some obj := by
  show (match scanBalanced (obj ++ rest) 0 false false 0 with
    | none => none
    | some len => some ((obj ++ rest).take len)) = some obj
  rw [hscan]
  show some ((obj ++ rest).take obj.length) = some obj
  rw [List.take_left]

/-- After the needle, any brace-free gap is skipped, and the balanced text
from the first opening brace is extracted exactly. -/
theorem extractAfterNeedle_exact (gap t rest : List Char)
    (hgap : ∀ c ∈ gap, c ≠ '\x7b')
    (hscan : scanBalanced (('\x7b' :: t) ++ rest) 0 false false 0 =
      some ('\x7b' :: t).length) :
    extractAfterNeedle (gap ++ (('\x7b' :: t) ++ rest)) = some ('\x7b' :: t) := by
  show (match List.findIdx? (fun c => c = '\x7b')
      (gap ++ (('\x7b' :: t) ++ rest)) with
    | none => none
    | some braceOff => extractBalanced ((gap ++ (('\x7b' :: t) ++ rest)).drop braceOff)) = _
  rw [List.cons_append, findIdx_gap gap (t ++ rest) hgap]
  show extractBalanced ((gap ++ ('\x7b' :: (t ++ rest))).drop gap.length) = _
  rw [List.drop_left]
  rw [show ('\x7b' :: (t ++ rest)) = ('\x7b' :: t) ++ rest from rfl]
  exact extractBalanced_exact ('\x7b' :: t) rest hscan

/-- C4: for every HTML payload in which the needle occurs — at any position,
followed by any brace-free gap — ahead of the JSON text of an arbitrary
object value and arbitrary trailing content, the brace-balanced extractor
returns exactly the object text, ending at the true matching closing brace;
brace characters occurring inside the object's string literals (which may
also contain backslash-escaped quotes and backslashes) are ignored by the
scanner's in-string and escape tracking. -/
theorem c4_brace_balanced_extraction (html gap rest : List Char) (start : Nat)
    (fields : List (String × Json))
    (hfind : findSub needleSM html = some start)
    (hafter : html.drop (start + needleSM.length) =
      gap ++ (serializeJson (Json.obj fields) ++ rest))
    (hgap : ∀ c ∈ gap, c ≠ '\x7b') :
    extract_shortcode_media_json html = some (serializeJson (Json.obj fields)) := by
  show (match findSub needleSM html with
    | none => none
    | some s => extractAfterNeedle (html.drop (s + needleSM.length))) = _
  rw [hfind]
  show extractAfterNeedle (html.drop (start + needleSM.length)) = _
  rw [hafter]
  have hser : serializeJson (Json.obj fields) =
      '\x7b' :: (serP (jsonSizeFields fields + 1) (SerMode.fields fields) ++ ['\x7d']) :=
    rfl
  rw [hser]
  exact extractAfterNeedle_exact gap _ rest hgap
    (scanBalanced_serObj (jsonSizeFields fields + 1) fields rest)

set_option maxRecDepth 10000 in
/-- C4 (witness): a concrete page with leading content (the needle sits at
index 28, after an unrelated braced fragment), a one-space gap, and an object
whose string value contains an escaped quote, an escaped backslash and an
unescaped closing brace, plus an array, numbers, a bool and a null; the
extractor returns exactly the serialized object, which is spelled out as a
literal in the second conjunct (including the spec's brace-in-string shape). -/
theorem c4_brace_balanced_extraction_witness :
    extract_shortcode_media_json c4HtmlW = some (serializeJson c4ObjW) ∧
    serializeJson c4ObjW =
      "\x7b\"owner\":\x7b\"username\":\"a\\\"\\\\\x7db\"\x7d,\"dimensions\":[640,480],\"is_video\":false,\"caption\":null\x7d".toList := by
  constructor
  · exact c4_brace_balanced_extraction c4HtmlW (" ".toList)
      ("\x7d;</script>".toList) 28
      [("owner", Json.obj [("username", Json.str "a\"\\\x7db")]),
        ("dimensions", Json.arr [Json.num 640, Json.num 480]),
        ("is_video", Json.bool false), ("caption", Json.null)]
      (by decide) (by decide) (by decide)
  · decide

/-- C5: every record the bare-HTML extractor returns has exactly one media
item, an image with both dimensions absent, `is_video = false`, and is
therefore recognized by the orchestrator's thumbnail-only classification. -/
theorem c5_bare_html_shape (html : List Char) (pid : String) (d : InstaData)
    (h : extract_from_html html pid = some d) :
    (∃ u, d.media = [{ media_type := MediaType.image, url := u,
                       thumbnail_url := none, width := none, height := none }]) ∧
    d.is_video = false ∧ is_html_fallback d = true := by
  unfold extract_from_html at h
  rcases hattr : extract_attr_from_class html "EmbeddedMediaImage".toList
      "src".toList with _ | image_url <;> rw [hattr] at h
  · exact absurd h (by simp)
  · have hd := Option.some.inj h
    subst hd
    exact ⟨⟨_, rfl⟩, rfl, rfl⟩

/-- C5 (witness): the shape facts at a concrete bare-HTML page. -/
theorem c5_bare_html_shape_witness :
    (∃ u, dC5.media = [{ media_type := MediaType.image, url := u,
                         thumbnail_url := none, width := none, height := none }]) ∧
    dC5.is_video = false ∧ is_html_fallback dC5 = true :=
  c5_bare_html_shape htmlC5 "P" dC5 (by decide)

/-- Auxiliary: `filterMap` loses nothing when the function succeeds on every
element. -/
theorem length_filterMap_of_isSome {α β : Type} (f : α → Option β) :
    ∀ l : List α, (∀ x ∈ l, (f x).isSome) → (l.filterMap f).length = l.length
  | [], _ => rfl
  | x :: xs, h => by
    rcases hfx : f x with _ | y
    · exact absurd (h x (List.mem_cons_self x xs)) (by simp [hfx])
    · simp only [List.filterMap_cons, hfx, List.length_cons]
      rw [length_filterMap_of_isSome f xs
        (fun z hz => h z (List.mem_cons_of_mem x hz))]

/-- C6 (counterexample): a carousel child-list with one entry that lacks a
`node` field yields zero MediaItems, not one — `filter_map` silently drops
it. -/
theorem c6_counterexample :
    build_media_list nodeC6 = [] ∧
    (((nodeC6.get "edge_sidecar_to_children").bind (fun c => c.get "edges")).bind
      Json.as_array).map List.length = some 1 :=
  ⟨rfl, rfl⟩

/-- C6 (amended): a node with a carousel child list yields one MediaItem per
child entry that carries a `node` field, in the children's order; in
particular, exactly N items when all N entries carry one. A node without the
child-list field yields exactly one item built from the node itself. The
private-API helper behaves the same with "child entry parseable as media"
in place of "carries a node field" (an unparseable single item yields zero
items). -/
theorem c6_carousel_counts :
    (∀ media edges,
      ((media.get "edge_sidecar_to_children").bind (fun c => c.get "edges")).bind
        Json.as_array = some edges →
      build_media_list media =
        edges.filterMap (fun edge => (edge.get "node").map media_from_node) ∧
      ((∀ e ∈ edges, (e.get "node").isSome) →
        (build_media_list media).length = edges.length)) ∧
    (∀ media,
      ((media.get "edge_sidecar_to_children").bind (fun c => c.get "edges")).bind
        Json.as_array = none →
      build_media_list media = [media_from_node media]) ∧
    (∀ item carousel,
      (item.get "carousel_media").bind Json.as_array = some carousel →
      papiMediaItems item = carousel.filterMap parse_papi_media ∧
      ((∀ m ∈ carousel, (parse_papi_media m).isSome) →
        (papiMediaItems item).length = carousel.length)) ∧
    (∀ item,
      (item.get "carousel_media").bind Json.as_array = none →
      papiMediaItems item =
        (match parse_papi_media item with
         | some m => [m]
         | none => [])) := by
  refine ⟨?_, ?_, ?_, ?_⟩
  · intro media edges h
    have hb : build_media_list media =
        edges.filterMap (fun edge => (edge.get "node").map media_from_node) := by
      unfold build_media_list
      rw [h]
    refine ⟨hb, fun hall => ?_⟩
    rw [hb]
    refine length_filterMap_of_isSome _ edges (fun e he => ?_)
    rcases hn : e.get "node" with _ | n
    · exact absurd (hall e he) (by simp [hn])
    · simp [hn]
  · intro media h
    unfold build_media_list
    rw [h]
  · intro item carousel h
    have hb : papiMediaItems item = carousel.filterMap parse_papi_media := by
      unfold papiMediaItems
      rw [h]
    exact ⟨hb, fun hall => by rw [hb]; exact length_filterMap_of_isSome _ carousel hall⟩
  · intro item h
    unfold papiMediaItems
    rw [h]

/-- C6 (witness): a two-child carousel whose entries all carry `node` fields
yields exactly two items. -/
theorem c6_carousel_counts_witness :
    (build_media_list nodeC6w).length = edgesC6w.length :=
  (c6_carousel_counts.1 nodeC6w edgesC6w rfl).2 (by decide)

/-- C9 (counterexample): the extractors do substitute invented values for
missing non-count fields — a node without `taken_at_timestamp` gets
`timestamp = 0`, and a private-API item without `user` gets username
`"unknown"`. -/
theorem c9_counterexample :
    (nodeC9.get "taken_at_timestamp").isNone = true ∧
    (parse_shortcode_media nodeC9 "P").map (fun d => d.timestamp) = some 0 ∧
    (itemC9.get "user").isNone = true ∧
    (match parse_papi_item itemC9 "P" with
     | Except.ok (some d) => d.username
     | _ => "") = "unknown" :=
  ⟨rfl, rfl, rfl, rfl⟩

/-- C9 (amended): counts, dimensions and the view count are read with
absence-tolerance (missing maps to None); the embed-JSON username is
required (extraction fails without it); but a missing timestamp defaults to
0, and the private-API username defaults to "unknown". -/
theorem c9_absence_tolerance :
    (∀ node pid d, parse_shortcode_media node pid = some d →
      d.like_count = ((node.get "edge_media_preview_like").bind
        (fun l => l.get "count")).bind Json.as_u64 ∧
      d.comment_count = ((node.get "edge_media_to_comment").bind
        (fun l => l.get "count")).bind Json.as_u64 ∧
      d.video_view_count = (node.get "video_view_count").bind Json.as_u64 ∧
      ((node.get "taken_at_timestamp").bind Json.as_u64 = none →
        d.timestamp = 0)) ∧
    (∀ node pid,
      ((node.get "owner").bind (fun o => o.get "username")).bind Json.as_str =
        none →
      parse_shortcode_media node pid = none) ∧
    (∀ node, node.get "dimensions" = none →
      (media_from_node node).width = none ∧
      (media_from_node node).height = none) ∧
    (∀ item pid,
      ((item.get "user").bind (fun u => u.get "username")).bind Json.as_str =
        none →
      ∃ d, parse_papi_item item pid = Except.ok (some d) ∧
        d.username = "unknown") ∧
    (∀ item pid d, parse_papi_item item pid = Except.ok (some d) →
      d.like_count = (item.get "like_count").bind Json.as_u64 ∧
      d.comment_count = (item.get "comment_count").bind Json.as_u64 ∧
      d.video_view_count = (item.get "view_count").bind Json.as_u64 ∧
      ((item.get "taken_at").bind Json.as_u64 = none → d.timestamp = 0)) := by
  refine ⟨?_, ?_, ?_, ?_, ?_⟩
  · intro node pid d h
    unfold parse_shortcode_media at h
    rcases husr : ((node.get "owner").bind (fun o => o.get "username")).bind
        Json.as_str with _ | username <;> rw [husr] at h
    · exact absurd h (by simp)
    · have hd := Option.some.inj h
      subst hd
      refine ⟨rfl, rfl, rfl, fun ht => ?_⟩
      show ((node.get "taken_at_timestamp").bind Json.as_u64).getD 0 = 0
      rw [ht]
      rfl
  · intro node pid h
    unfold parse_shortcode_media
    rw [h]
  · intro node h
    constructor <;> simp [media_from_node, h, apply_ite]
  · intro item pid h
    refine ⟨_, rfl, ?_⟩
    show ((((item.get "user").bind (fun u => u.get "username")).bind
      Json.as_str).getD "unknown") = "unknown"
    rw [h]
    rfl
  · intro item pid d h
    have hd := Option.some.inj (Except.ok.inj h)
    subst hd
    refine ⟨rfl, rfl, rfl, fun ht => ?_⟩
    show ((item.get "taken_at").bind Json.as_u64).getD 0 = 0
    rw [ht]
    rfl

/-- C9 (witness): the amended claim at concrete nodes — a userless
private-API item gets "unknown", an ownerless embed node fails. -/
theorem c9_absence_tolerance_witness :
    (∃ d, parse_papi_item itemC9 "P" = Except.ok (some d) ∧
      d.username = "unknown") ∧
    parse_shortcode_media (Json.obj []) "P" = none :=
  ⟨c9_absence_tolerance.2.2.2.1 itemC9 "P" rfl,
   c9_absence_tolerance.2.1 (Json.obj []) "P" rfl⟩

/-- Auxiliary: the codec's fold is monotone in its accumulator. -/
theorem codeFold_le (cs : List Char) : ∀ acc : Nat,
    acc ≤ cs.foldl (fun a c => a * 64 + (alphaPos c).getD 0) acc := by
  induction cs with
  | nil => intro acc; simp
  | cons c cs ih =>
    intro acc
    simp only [List.foldl_cons]
    calc acc ≤ acc * 64 + (alphaPos c).getD 0 := by omega
    _ ≤ _ := ih _

/-- Auxiliary: what the checked loop of `code_to_mediaid` computes, for any
in-range accumulator. -/
theorem codeToMediaidAux_spec (cs : List Char) : ∀ acc : Nat,
    acc < 18446744073709551616 →
    codeToMediaidAux acc cs =
      (if (∀ c ∈ cs, (alphaPos c).isSome) ∧
          cs.foldl (fun a c => a * 64 + (alphaPos c).getD 0) acc <
            18446744073709551616 then
        some (cs.foldl (fun a c => a * 64 + (alphaPos c).getD 0) acc)
      else none) := by
  induction cs with
  | nil =>
    intro acc hacc
    simp [codeToMediaidAux, hacc]
  | cons c cs ih =>
    intro acc hacc
    rcases hp : alphaPos c with _ | p
    · have hfalse : ¬ ((∀ c' ∈ c :: cs, (alphaPos c').isSome) ∧
          (c :: cs).foldl (fun a x => a * 64 + (alphaPos x).getD 0) acc <
            18446744073709551616) := by
        rintro ⟨hall, -⟩
        have := hall c (List.mem_cons_self c cs)
        rw [hp] at this
        simp at this
      rw [if_neg hfalse]
      simp [codeToMediaidAux, hp]
    · have hstep : codeToMediaidAux acc (c :: cs) =
          (if acc * 64 < 18446744073709551616 ∧
              acc * 64 + p < 18446744073709551616 then
            codeToMediaidAux (acc * 64 + p) cs
          else none) := by
        simp [codeToMediaidAux, hp]
      by_cases hb : acc * 64 < 18446744073709551616 ∧
          acc * 64 + p < 18446744073709551616
      · rw [hstep, if_pos hb, ih (acc * 64 + p) hb.2]
        simp only [List.foldl_cons, hp, Option.getD_some, List.forall_mem_cons,
          Option.isSome_some, true_and]
      · rw [hstep, if_neg hb]
        have hge : 18446744073709551616 ≤ acc * 64 + p := by omega
        have hfold : 18446744073709551616 ≤
            cs.foldl (fun a x => a * 64 + (alphaPos x).getD 0) (acc * 64 + p) :=
          le_trans hge (codeFold_le cs (acc * 64 + p))
        have hfalse : ¬ ((∀ c' ∈ c :: cs, (alphaPos c').isSome) ∧
            (c :: cs).foldl (fun a x => a * 64 + (alphaPos x).getD 0) acc <
              18446744073709551616) := by
          rintro ⟨-, hlt⟩
          rw [List.foldl_cons, hp] at hlt
          simp only [Option.getD_some] at hlt
          omega
        rw [if_neg hfalse]

/-- C10 (counterexample): the position lookup compares bytes
(`ch as u8`), so the non-alphabet character U+0141, whose low byte is that
of `A`, is accepted: `code_to_mediaid` returns `Some 0`, not `None`. -/
theorem c10_counterexample :
    (Char.ofNat 321) ∉
      "ABCDEFGHIJKLMNOPQRSTUVWXYZabcdefghijklmnopqrstuvwxyz0123456789-_".toList ∧
    code_to_mediaid (String.mk [Char.ofNat 321]) = some 0 :=
  ⟨by decide, rfl⟩

/-- C10 (amended): `code_to_mediaid` is total and never wraps: it returns
`Some` of the accumulated value exactly when every character's low byte
(`ch as u8`) matches an alphabet byte and the value fits in `u64`
(checked multiply and add), and `None` otherwise; the private-API strategy
treats the `None` case as no data, not an error. -/
theorem c10_codec_checked :
    (∀ code : String,
      code_to_mediaid code =
        (if (∀ c ∈ code.toList, (alphaPos c).isSome) ∧
            codeNatValue code < 18446744073709551616 then
          some (codeNatValue code)
        else none)) ∧
    (∀ cookie pid direct proxied, code_to_mediaid pid = none →
      fetch_papi (some cookie) pid direct proxied = Except.ok none) := by
  constructor
  · intro code
    exact codeToMediaidAux_spec code.toList 0 (by norm_num)
  · intro cookie pid direct proxied h
    unfold fetch_papi
    show (match code_to_mediaid pid with
          | none => Except.ok none
          | some _media_id => papiParse (papiText direct proxied) pid) =
      Except.ok none
    rw [h]

/-- C10 (witness): a shortcode with an out-of-alphabet byte makes the
private-API strategy report no data. -/
theorem c10_codec_checked_witness :
    fetch_papi (some "sid") "!" (Except.error "e") (Except.error "e") =
      Except.ok none :=
  c10_codec_checked.2 "sid" "!" (Except.error "e") (Except.error "e") rfl

/-- Auxiliary: the redirect loop consults only the responses at hop indices
`k, …, k + fuel - 1`. -/
theorem resolve_share_go_congr (fuel : Nat) :
    ∀ (net net' : Nat → Except String HttpResp) (current : String) (k : Nat),
    (∀ j, k ≤ j → j < k + fuel → net j = net' j) →
    resolve_share_go net current fuel k =
      resolve_share_go net' current fuel k := by
  induction fuel with
  | zero => intro net net' current k _; rfl
  | succ fuel ih =>
    intro net net' current k h
    have h0 : net k = net' k := h k (le_refl k) (by omega)
    unfold resolve_share_go
    rw [h0]
    rcases hnk : net' k with e | resp <;> simp only [goNet]
    rcases hst : resolveStep current resp with r | url <;> simp only [goCont]
    exact ih net net' url (k + 1) (fun j hj1 hj2 => h j (by omega) (by omega))

/-- C8: the share-link resolver follows at most 5 hops (its result depends
only on the responses at hops 0–4); at a 3xx hop whose Location resolves to
a URL with a recognizable post-id segment it returns that id immediately;
without such a segment it continues from the resolved URL; a non-redirect
response triggers extraction on the current URL; an exhausted hop budget, an
unresolvable redirect, and a 3xx response without Location all yield None. -/
theorem c8_redirect_resolver :
    (∀ share_path (net net' : Nat → Except String HttpResp),
      (∀ k, k < 5 → net k = net' k) →
      resolve_share_url share_path net = resolve_share_url share_path net') ∧
    (∀ net current fuel k status loc u pid,
      net k = Except.ok ⟨status, some loc⟩ → 300 ≤ status → status < 400 →
      resolveLocation current loc = some u → extract_post_id u.path = some pid →
      resolve_share_go net current (fuel + 1) k = Except.ok (some pid)) ∧
    (∀ net current fuel k status loc u,
      net k = Except.ok ⟨status, some loc⟩ → 300 ≤ status → status < 400 →
      resolveLocation current loc = some u → extract_post_id u.path = none →
      resolve_share_go net current (fuel + 1) k =
        resolve_share_go net u.toString fuel (k + 1)) ∧
    (∀ net current fuel k resp,
      net k = Except.ok resp → ¬ (300 ≤ resp.status ∧ resp.status < 400) →
      resolve_share_go net current (fuel + 1) k =
        Except.ok (urlExtract current)) ∧
    (∀ net current k, resolve_share_go net current 0 k = Except.ok none) ∧
    (∀ net current fuel k status loc,
      net k = Except.ok ⟨status, some loc⟩ → 300 ≤ status → status < 400 →
      resolveLocation current loc = none →
      resolve_share_go net current (fuel + 1) k = Except.ok none) ∧
    (∀ net current fuel k status,
      net k = Except.ok ⟨status, none⟩ → 300 ≤ status → status < 400 →
      resolve_share_go net current (fuel + 1) k = Except.ok none) := by
  refine ⟨?_, ?_, ?_, ?_, ?_, ?_, ?_⟩
  · intro share_path net net' h
    exact resolve_share_go_congr 5 net net'
      ("https://www.instagram.com/" ++ share_path) 0
      (fun j _ hj2 => h j (by omega))
  · intro net current fuel k status loc u pid hnet hs1 hs2 hres hext
    have hstep : resolveStep current ⟨status, some loc⟩ =
        StepOutcome.done (Except.ok (some pid)) := by
      unfold resolveStep
      rw [if_pos ⟨hs1, hs2⟩]
      show stepLoc current (some loc) = _
      simp only [stepLoc]
      rw [hres]
      simp only [stepResolved, stepExtract]
      rw [hext]
      rfl
    unfold resolve_share_go
    rw [hnet]
    simp only [goNet]
    rw [hstep]
    rfl
  · intro net current fuel k status loc u hnet hs1 hs2 hres hext
    have hstep : resolveStep current ⟨status, some loc⟩ =
        StepOutcome.next u.toString := by
      unfold resolveStep
      rw [if_pos ⟨hs1, hs2⟩]
      show stepLoc current (some loc) = _
      simp only [stepLoc]
      rw [hres]
      simp only [stepResolved, stepExtract]
      rw [hext]
      rfl
    conv_lhs => unfold resolve_share_go
    rw [hnet]
    simp only [goNet]
    rw [hstep]
    rfl
  · intro net current fuel k resp hnet hs
    have hstep : resolveStep current resp =
        StepOutcome.done (Except.ok (urlExtract current)) := by
      unfold resolveStep
      rw [if_neg hs]
    unfold resolve_share_go
    rw [hnet]
    simp only [goNet]
    rw [hstep]
    rfl
  · intro net current k; rfl
  · intro net current fuel k status loc hnet hs1 hs2 hres
    have hstep : resolveStep current ⟨status, some loc⟩ =
        StepOutcome.done (Except.ok none) := by
      unfold resolveStep
      rw [if_pos ⟨hs1, hs2⟩]
      show stepLoc current (some loc) = _
      simp only [stepLoc]
      rw [hres]
      rfl
    unfold resolve_share_go
    rw [hnet]
    simp only [goNet]
    rw [hstep]
    rfl
  · intro net current fuel k status hnet hs1 hs2
    have hstep : resolveStep current ⟨status, none⟩ =
        StepOutcome.done (Except.ok none) := by
      unfold resolveStep
      rw [if_pos ⟨hs1, hs2⟩]
      rfl
    unfold resolve_share_go
    rw [hnet]
    simp only [goNet]
    rw [hstep]
    rfl

/-- C8 (witness): on the four-hop chain `netC8` the first hop resolves
`/hop1` against the share URL without finding an id, so the loop continues
(and, computing the remaining hops, ends at the reel id). -/
theorem c8_redirect_resolver_witness :
    resolve_share_go netC8 "https://www.instagram.com/share/r/xyz" 5 0 =
      resolve_share_go netC8 "https://www.instagram.com/hop1" 4 1 ∧
    resolve_share_url "share/r/xyz" netC8 = Except.ok (some "ZZ9") := by
  constructor
  · exact c8_redirect_resolver.2.2.1 netC8
      "https://www.instagram.com/share/r/xyz" 4 0 302 "/hop1"
      { scheme := "https", host := "www.instagram.com", path := "/hop1",
        query := none }
      rfl (by norm_num) (by norm_num) rfl rfl
  · rfl

/-- Auxiliary: the quote scanner stops exactly at the unescaped quote
closing an escaped document, for any content. -/
theorem scanQuote_ctxEscape (content : List Char) :
    ∀ (tail : List Char) (i : Nat),
    scanQuote (ctxEscape content ++ '"' :: tail) false i =
      some (i + (ctxEscape content).length) := by
  induction content with
  | nil => intro tail i; simp [ctxEscape, scanQuote]
  | cons c cs ih =>
    intro tail i
    by_cases hc : c = '"' ∨ c = '\\'
    · have hesc : ctxEscape (c :: cs) = '\\' :: c :: ctxEscape cs := by
        simp only [ctxEscape, if_pos hc]; rfl
      rw [hesc]
      simp only [List.cons_append]
      rw [show scanQuote ('\\' :: c :: (ctxEscape cs ++ '"' :: tail)) false i
          = scanQuote (ctxEscape cs ++ '"' :: tail) false (i + 1 + 1) from by
        simp [scanQuote]]
      rw [ih tail (i + 1 + 1)]
      simp only [Option.some.injEq, List.length_cons]
      omega
    · have hesc : ctxEscape (c :: cs) = c :: ctxEscape cs := by
        simp only [ctxEscape, if_neg hc]; rfl
      have hc1 : c ≠ '"' := fun hq => hc (Or.inl hq)
      have hc2 : c ≠ '\\' := fun hb => hc (Or.inr hb)
      rw [hesc]
      simp only [List.cons_append]
      rw [show scanQuote (c :: (ctxEscape cs ++ '"' :: tail)) false i
          = scanQuote (ctxEscape cs ++ '"' :: tail) false (i + 1) from by
        simp [scanQuote, hc1, hc2]]
      rw [ih tail (i + 1)]
      simp only [Option.some.injEq, List.length_cons]
      omega

/-- Auxiliary: the string parser unescapes an escaped document exactly,
for any content without control characters. -/
theorem parseStrChars_ctxEscape (content : List Char)
    (h : ∀ c ∈ content, 32 ≤ c.toNat) : ∀ tail : List Char,
    parseStrChars (ctxEscape content ++ '"' :: tail) = some (content, tail) := by
  induction content with
  | nil => intro tail; rfl
  | cons c cs ih =>
    intro tail
    have hcs : ∀ x ∈ cs, 32 ≤ x.toNat :=
      fun x hx => h x (List.mem_cons_of_mem c hx)
    have hc32 : 32 ≤ c.toNat := h c (List.mem_cons_self c cs)
    by_cases hc : c = '"' ∨ c = '\\'
    · have hesc : ctxEscape (c :: cs) = '\\' :: c :: ctxEscape cs := by
        simp only [ctxEscape, if_pos hc]; rfl
      rw [hesc]
      simp only [List.cons_append]
      rw [show parseStrChars ('\\' :: c :: (ctxEscape cs ++ '"' :: tail)) =
          (parseStrChars (ctxEscape cs ++ '"' :: tail)).map
            (fun p => (c :: p.1, p.2)) from by
        rcases hc with hq | hb
        · subst hq; rfl
        · subst hb; rfl]
      rw [ih hcs tail]
      rfl
    · have hesc : ctxEscape (c :: cs) = c :: ctxEscape cs := by
        simp only [ctxEscape, if_neg hc]; rfl
      have hc1 : c ≠ '"' := fun hq => hc (Or.inl hq)
      have hc2 : c ≠ '\\' := fun hb => hc (Or.inr hb)
      rw [hesc]
      simp only [List.cons_append]
      rw [show parseStrChars (c :: (ctxEscape cs ++ '"' :: tail)) =
          (parseStrChars (ctxEscape cs ++ '"' :: tail)).map
            (fun p => (c :: p.1, p.2)) from by
        simp [parseStrChars, hc1, hc2, Nat.not_lt.mpr hc32]]
      rw [ih hcs tail]
      rfl

set_option maxRecDepth 40000 in
/-- C7: the double-encoded extractor's string handling is quote/escape-aware
— for any escaped content, the quote scan stops exactly at the closing quote
and the unescape recovers the content — and on the spec's example payload
(an escaped `gql_data`/`shortcode_media` document, followed by any trailing
page content) the extractor parses the inner document, descends to the
media node, and returns the record parsed from it. -/
theorem c7_double_encoded_extraction :
    (∀ content tail : List Char, (∀ c ∈ content, 32 ≤ c.toNat) →
      scanQuote (ctxEscape content ++ '"' :: tail) false 0 =
        some (ctxEscape content).length ∧
      parseStrChars (ctxEscape content ++ '"' :: tail) = some (content, tail)) ∧
    (∀ rest : List Char,
      extract_from_context_json (ctxHtmlC7 ++ rest) "PID" = some dC7) := by
  constructor
  · intro content tail h
    refine ⟨?_, parseStrChars_ctxEscape content h tail⟩
    rw [scanQuote_ctxEscape content tail 0]
    simp
  · intro rest
    rfl

/-- C7 (witness): the escape-aware scan and unescape at a concrete content
containing an escaped quote. -/
theorem c7_double_encoded_extraction_witness :
    scanQuote (ctxEscape ['a', '"', 'b'] ++ '"' :: []) false 0 =
      some (ctxEscape ['a', '"', 'b']).length ∧
    parseStrChars (ctxEscape ['a', '"', 'b'] ++ '"' :: []) =
      some (['a', '"', 'b'], []) :=
  c7_double_encoded_extraction.1 ['a', '"', 'b'] [] (by decide)

end Cattgram
